import Mathlib

/-!
Verification of the care-circles agent pipeline core: a shallow embedding of
the Response Parser, the stage parsers of the Pipeline Orchestrator
(src/server/app/services/agent_orchestrator.py) and the Job Runner
(src/server/app/services/job_runner.py), with theorems settling the frozen
claims about them.

Python strings are modelled as Lean strings, Python json values as the
inductive type Json below, Python dicts as association lists with
insert-or-update semantics, and raised exceptions as an Except monad over an
error type distinguishing the exception classes the code catches.
Timestamp fields (datetime.utcnow) and logging calls are not modelled; the
random uuid4 id generator is modelled as an explicit stream of fresh id
strings threaded through the parsers.
-/

namespace CareCircles

/-! ## Python string primitives -/

/-- Python whitespace (str.strip default set and the re module class \s,
restricted to ASCII as used by the code). -/
def isPyWs (c : Char) : Bool :=
  c = ' ' || c = '\t' || c = '\n' || c = '\r' || c = '\x0b' || c = '\x0c'

/-- Model of Python str.lower (ASCII case folding). -/
def pyLower (s : String) : String := String.mk (s.data.map Char.toLower)

/-- Contiguous-sublist test on character lists. -/
def listInfixOf (sub : List Char) : List Char → Bool
  | [] => sub.isEmpty
  | c :: rest => sub.isPrefixOf (c :: rest) || listInfixOf sub rest

/-- Model of the Python substring test: sub in s. -/
def strContains (s sub : String) : Bool := listInfixOf sub.data s.data

/-- Model of Python str.strip() on a character list. -/
def pyStripList (l : List Char) : List Char :=
  ((l.dropWhile isPyWs).reverse.dropWhile isPyWs).reverse

/-- Model of Python str.strip(). -/
def pyStrip (s : String) : String := String.mk (pyStripList s.data)

/-- Model of Python str.startswith. -/
def pyStartsWith (s pre : String) : Bool := pre.data.isPrefixOf s.data

/-! ## JSON values (model of the Python json module's data model) -/

/-- Parsed JSON value. Numbers are restricted to integers: no claim under
verification involves fractional numbers. Objects carry their fields in
insertion order, as Python dicts do. -/
inductive Json where
  | null
  | bool (b : Bool)
  | num (n : Int)
  | str (s : String)
  | arr (items : List Json)
  | obj (fields : List (String × Json))

/-- Python type name of a value, as used in error messages. -/
def Json.typeName : Json → String
  | .null => "NoneType"
  | .bool _ => "bool"
  | .num _ => "int"
  | .str _ => "str"
  | .arr _ => "list"
  | .obj _ => "dict"

/-- Python dict insertion: overwrite the value in place if the key exists,
append otherwise. -/
def upsert {α : Type} (m : List (String × α)) (k : String) (v : α) :
    List (String × α) :=
  match m with
  | [] => [(k, v)]
  | (k', v') :: rest =>
      if k' = k then (k, v) :: rest else (k', v') :: upsert rest k v

/-- Dict lookup returning an optional value. -/
def dictFind (m : List (String × Json)) (k : String) : Option Json :=
  (m.find? (fun p => p.1 = k)).map (fun p => p.2)

/-- Model of the Python test: k in d. -/
def hasKey (m : List (String × Json)) (k : String) : Bool :=
  (dictFind m k).isSome

/-- Model of Python d.get(k, dflt). -/
def dictGet (m : List (String × Json)) (k : String) (dflt : Json) : Json :=
  (dictFind m k).getD dflt

/-- Python truthiness of a json value. -/
def pyTruthy : Json → Bool
  | .null => false
  | .bool b => b
  | .num n => n ≠ 0
  | .str s => s ≠ ""
  | .arr l => !l.isEmpty
  | .obj f => !f.isEmpty

/-! ## A model of json.loads (recursive-descent, fuel-bounded) -/

/-- JSON whitespace accepted between tokens by json.loads. -/
def isJsonWs (c : Char) : Bool :=
  c = ' ' || c = '\t' || c = '\n' || c = '\r'

/-- Skip JSON inter-token whitespace. -/
def skipJWs (l : List Char) : List Char := l.dropWhile isJsonWs

/-- Hexadecimal digit value. -/
def hexVal (c : Char) : Option Nat :=
  if '0' ≤ c ∧ c ≤ '9' then some (c.toNat - '0'.toNat)
  else if 'a' ≤ c ∧ c ≤ 'f' then some (c.toNat - 'a'.toNat + 10)
  else if 'A' ≤ c ∧ c ≤ 'F' then some (c.toNat - 'A'.toNat + 10)
  else none

/-- String-body scanner: consumes characters after the opening quote up to
the closing quote. Escapes cover the JSON set; a \u escape is accepted for
non-surrogate scalar values. Raw control characters are rejected, as in the
json module's strict mode. -/
def pStringBody (fuel : Nat) (l : List Char) : Option (List Char × List Char) :=
  match fuel, l with
  | 0, _ => none
  | _, [] => none
  | fuel + 1, c :: rest =>
    if c = '"' then some ([], rest)
    else if c = '\\' then
      match rest with
      | [] => none
      | e :: rest' =>
        let esc : Option (Char × List Char) :=
          if e = '"' then some ('"', rest')
          else if e = '\\' then some ('\\', rest')
          else if e = '/' then some ('/', rest')
          else if e = 'b' then some ('\x08', rest')
          else if e = 'f' then some ('\x0c', rest')
          else if e = 'n' then some ('\n', rest')
          else if e = 'r' then some ('\r', rest')
          else if e = 't' then some ('\t', rest')
          else if e = 'u' then
            match rest' with
            | h1 :: h2 :: h3 :: h4 :: rest'' =>
              match hexVal h1, hexVal h2, hexVal h3, hexVal h4 with
              | some a, some b, some c', some d =>
                let n := ((a * 16 + b) * 16 + c') * 16 + d
                if n < 0xd800 then
                  some (Char.ofNat n, rest'')
                else none
              | _, _, _, _ => none
            | _ => none
          else none
        match esc with
        | none => none
        | some (ch, rest'') =>
          match pStringBody fuel rest'' with
          | some (cs, r) => some (ch :: cs, r)
          | none => none
    else if c.toNat < 0x20 then none
    else
      match pStringBody fuel rest with
      | some (cs, r) => some (c :: cs, r)
      | none => none

/-- Digit run to a natural number; fails on an empty run and on a leading
zero followed by more digits (invalid in JSON). -/
def pDigits (l : List Char) : Option (Nat × List Char) :=
  let ds := l.takeWhile Char.isDigit
  let rest := l.dropWhile Char.isDigit
  match ds with
  | [] => none
  | '0' :: _ :: _ => none
  | _ => some (ds.foldl (fun acc c => acc * 10 + (c.toNat - '0'.toNat)) 0, rest)

mutual

/-- Value parser of the json.loads model. Leading whitespace is skipped.
A number followed by a fraction or exponent marker is rejected (the integer
restriction of this model). -/
def pValue : Nat → List Char → Option (Json × List Char)
  | 0, _ => none
  | fuel + 1, l =>
    match skipJWs l with
    | [] => none
    | '{' :: rest => pObj fuel rest
    | '[' :: rest => pArr fuel rest
    | '"' :: rest =>
      match pStringBody (rest.length + 1) rest with
      | some (cs, r) => some (.str (String.mk cs), r)
      | none => none
    | 't' :: 'r' :: 'u' :: 'e' :: rest => some (.bool true, rest)
    | 'f' :: 'a' :: 'l' :: 's' :: 'e' :: rest => some (.bool false, rest)
    | 'n' :: 'u' :: 'l' :: 'l' :: rest => some (.null, rest)
    | '-' :: rest =>
      match pDigits rest with
      | some (n, r) =>
        match r with
        | '.' :: _ => none
        | 'e' :: _ => none
        | 'E' :: _ => none
        | _ => some (.num (-(n : Int)), r)
      | none => none
    | c :: rest =>
      if c.isDigit then
        match pDigits (c :: rest) with
        | some (n, r) =>
          match r with
          | '.' :: _ => none
          | 'e' :: _ => none
          | 'E' :: _ => none
          | _ => some (.num (n : Int), r)
        | none => none
      else none

/-- Array parser, called after the opening bracket. -/
def pArr : Nat → List Char → Option (Json × List Char)
  | 0, _ => none
  | fuel + 1, l =>
    match skipJWs l with
    | ']' :: rest => some (.arr [], rest)
    | _ => pArrElems fuel [] l

/-- Array element loop: parses a value, then either a comma or the closing
bracket. -/
def pArrElems : Nat → List Json → List Char → Option (Json × List Char)
  | 0, _, _ => none
  | fuel + 1, acc, l =>
    match pValue fuel l with
    | none => none
    | some (v, r) =>
      match skipJWs r with
      | ',' :: rest => pArrElems fuel (acc ++ [v]) rest
      | ']' :: rest => some (.arr (acc ++ [v]), rest)
      | _ => none

/-- Object parser, called after the opening brace. -/
def pObj : Nat → List Char → Option (Json × List Char)
  | 0, _ => none
  | fuel + 1, l =>
    match skipJWs l with
    | '}' :: rest => some (.obj [], rest)
    | _ => pObjMembers fuel [] l

/-- Object member loop: a quoted key, a colon, a value, then either a comma
or the closing brace. Members are inserted with dict semantics. -/
def pObjMembers : Nat → List (String × Json) → List Char →
    Option (Json × List Char)
  | 0, _, _ => none
  | fuel + 1, acc, l =>
    match skipJWs l with
    | '"' :: rest =>
      match pStringBody (rest.length + 1) rest with
      | none => none
      | some (ks, r) =>
        match skipJWs r with
        | ':' :: r' =>
          match pValue fuel r' with
          | none => none
          | some (v, r'') =>
            let acc' := upsert acc (String.mk ks) v
            match skipJWs r'' with
            | ',' :: rest' => pObjMembers fuel acc' rest'
            | '}' :: rest' => some (.obj acc', rest')
            | _ => none
        | _ => none
    | _ => none

end

/-- Model of json.loads: parse one value and require only whitespace after
it. The fuel bound is generous; the recursion consumes at least one input
character per two fuel ticks. -/
def jsonParse (s : String) : Option Json :=
  match pValue (4 * s.data.length + 16) s.data with
  | some (v, rest) => if (skipJWs rest).isEmpty then some v else none
  | none => none

/-! ## Python exceptions

The stage parsers catch exactly ValueError, json.JSONDecodeError and
KeyError; AttributeError is outside that tuple. str(e) is the message. -/

inductive PyErr where
  | valueError (msg : String)
  | jsonDecodeError (msg : String)
  | keyError (msg : String)
  | attributeError (msg : String)

/-- Model of str(e). -/
def PyErr.msg : PyErr → String
  | .valueError m => m
  | .jsonDecodeError m => m
  | .keyError m => m
  | .attributeError m => m

/-- Membership in the tuple (ValueError, json.JSONDecodeError, KeyError) of
the stage parsers' except clauses. -/
def PyErr.catchable : PyErr → Bool
  | .valueError _ => true
  | .jsonDecodeError _ => true
  | .keyError _ => true
  | .attributeError _ => false

/-- Model of s.lower() on a json value: AttributeError on a non-string. -/
def jsonLower : Json → Except PyErr String
  | .str s => .ok (pyLower s)
  | v => .error (.attributeError (v.typeName ++ " object has no attribute lower"))

/-- Model of s.strip() on a json value: AttributeError on a non-string. -/
def jsonStrip : Json → Except PyErr String
  | .str s => .ok (pyStrip s)
  | v => .error (.attributeError (v.typeName ++ " object has no attribute strip"))

/-- Model of pydantic coercion of a json value into a required str field:
a non-string raises a ValidationError, which subclasses ValueError. -/
def requireStr : Json → Except PyErr String
  | .str s => .ok s
  | v => .error (.valueError ("validation error: input should be a valid string, got " ++ v.typeName))

/-! ## The Response Parser: AgentOrchestrator._extract_json

The two regular expressions of the source,
with the json language tag and without one, are specialised here. Both are
anchored on a literal backtick fence, then greedy whitespace, then a lazily
extended brace- or bracket-delimited group, then greedy whitespace and a
closing fence; for this pattern shape the greedy whitespace steps are
deterministic (backtracking into them can never help), so the Python
backtracking search reduces to: leftmost start position, and for the group
the least close-delimiter position whose tail is whitespace followed by a
fence. -/

/-- Opening fence of the first pattern (with the json language tag). -/
def fenceTagJson : List Char := ['`', '`', '`', 'j', 's', 'o', 'n']

/-- Opening fence of the second pattern (no language tag). -/
def fenceBare : List Char := ['`', '`', '`']

/-- Closing fence. -/
def fenceTicks : List Char := ['`', '`', '`']

/-- Literal-prefix matcher: consume tag from the front of l. -/
def dropPref : List Char → List Char → Option (List Char)
  | [], l => some l
  | _ :: _, [] => none
  | p :: ps, c :: l => if c = p then dropPref ps l else none

/-- Does the remainder consist of whitespace followed by a closing fence? -/
def isFenceAfter (l : List Char) : Bool :=
  fenceTicks.isPrefixOf (l.dropWhile isPyWs)

/-- Lazy group scan: the least position holding the closing delimiter and
followed by whitespace and a fence; returns the consumed characters, the
closing delimiter included. -/
def lazyMid (close : Char) : List Char → Option (List Char)
  | [] => none
  | c :: rest =>
    if c = close && isFenceAfter rest then some [c]
    else (lazyMid close rest).map (fun g => c :: g)

/-- Attempt the fence pattern at one start position; returns the captured
group. -/
def matchFenceAt (tag : List Char) (l : List Char) : Option (List Char) :=
  match dropPref tag l with
  | none => none
  | some afterTag =>
    match afterTag.dropWhile isPyWs with
    | '{' :: rest => (lazyMid '}' rest).map (fun g => '{' :: g)
    | '[' :: rest => (lazyMid ']' rest).map (fun g => '[' :: g)
    | _ => none

/-- Model of re.search for the fence pattern: try every start position from
the left. -/
def searchFence (tag : List Char) : List Char → Option (List Char)
  | [] => none
  | c :: rest =>
    match matchFenceAt tag (c :: rest) with
    | some g => some g
    | none => searchFence tag rest

/-- One pattern step of _extract_json: search, then parse the group; a group
that fails json.loads falls through exactly like an absent match. -/
def tryFence (tag : List Char) (text : String) : Option Json :=
  match searchFence tag text.data with
  | some g => jsonParse (String.mk g)
  | none => none

/-- First 200 characters, the diagnostic excerpt of the failure message. -/
def truncated (s : String) : String := String.mk (s.data.take 200)

/-- Failure message of _extract_json. -/
def noJsonMsg (text : String) : String :=
  "No valid JSON found in agent response. Response must be valid JSON only. Got: "
    ++ truncated text ++ "..."

/-- Step 1 of _extract_json: a direct parse, attempted only when the
stripped text starts with a brace or bracket. -/
def directParse (text : String) : Option Json :=
  let ts := pyStrip text
  if pyStartsWith ts "\x7b" || pyStartsWith ts "[" then jsonParse ts else none

/-- Model of AgentOrchestrator._extract_json: direct parse, then the tagged
fence pattern, then the untagged one, else ValueError with an excerpt. -/
def extract_json (text : String) : Except PyErr Json :=
  match directParse text with
  | some v => .ok v
  | none =>
    match tryFence fenceTagJson text with
    | some v => .ok v
    | none =>
      match tryFence fenceBare text with
      | some v => .ok v
      | none => .error (.valueError (noJsonMsg text))

/-! ## Constants (app/config/constants.py) -/

namespace JobStatus

def queued : String := "queued"

def running : String := "running"

def completed : String := "completed"

def failed : String := "failed"

end JobStatus

namespace RequestStatus

def submitted : String := "submitted"

def processing : String := "processing"

def completed : String := "completed"

end RequestStatus

namespace TaskPriority

def low : String := "low"

def medium : String := "medium"

def high : String := "high"

end TaskPriority

namespace TaskStatus

def draft : String := "draft"

end TaskStatus

namespace ApprovalStatus

def pending : String := "pending"

end ApprovalStatus

/-! ## Domain records (app/models/domain.py)

Only the fields the claims touch are carried; the datetime fields are not
modelled. -/

structure CareRequest where
  id : String
  narrative : String
  constraints : Option String
  boundaries : Option String
  status : String
deriving DecidableEq

structure CareTask where
  id : String
  care_request_id : String
  title : String
  description : String
  category : String
  priority : String
  status : String
deriving DecidableEq

structure ReviewPacket where
  id : String
  care_request_id : String
  summary : String
  draft_tasks : List CareTask
  agent_notes : String
  approval_status : String
deriving DecidableEq

/-- The dictionary stored into job.result on success. -/
structure JobResult where
  review_packet_id : String
  summary : String
  task_count : Nat
  tasks : List CareTask
  agent_notes : String
deriving DecidableEq

structure Job where
  id : String
  care_request_id : String
  care_request : Option CareRequest
  status : String
  current_agent : Option String
  agent_progress : List (String × String)
  error : Option String
  result : Option JobResult
deriving DecidableEq

/-! ## Stage parsers of AgentOrchestrator

The uuid4-based id minting is modelled by a stream fresh of hex fragments; a
task id is the string task_ followed by the next unconsumed fragment, and
the counter advances exactly when the source calls uuid4. -/

/-- Stage wrapping of caught exceptions: the except clause of every stage
parser catches (ValueError, json.JSONDecodeError, KeyError) and re-raises a
ValueError carrying a stage-identifying message; any other exception
propagates unchanged. Quote marks of the source messages are elided. -/
def wrapStage (stageMsg : String) {α : Type} (r : Except PyErr α) :
    Except PyErr α :=
  match r with
  | .ok v => .ok v
  | .error e =>
    if e.catchable then .error (.valueError (stageMsg ++ "Error: " ++ e.msg))
    else .error e

/-- Priority normalization applied to the lowered priority text: the
if "high" / elif "low" / else chain repeated in every stage parser. -/
def priorityFromText (ptext : String) : String :=
  if strContains ptext "high" then TaskPriority.high
  else if strContains ptext "low" then TaskPriority.low
  else TaskPriority.medium

/-- Priority mapping applied to a string priority value: lower it, then the
substring checks. -/
def mapPriority (s : String) : String := priorityFromText (pyLower s)

/-- Loop body of _parse_tasks (stage 2): builds a CareTask from a task
object already known to hold a title key. Field evaluation follows the
source order: the priority text is lowered first, the category is lowered
when the constructor arguments are evaluated, and the pydantic coercion of
title and description to str runs at validation. -/
def buildTask2 (crid : String) (tid : String) (flds : List (String × Json)) :
    Except PyErr CareTask := do
  let ptext ← jsonLower (dictGet flds "priority" (.str "medium"))
  let priority := priorityFromText ptext
  let titleV := dictGet flds "title" (.str "Untitled Task")
  let descrV := dictGet flds "description" (.str "")
  let category ← jsonLower (dictGet flds "category" (.str "general"))
  let title ← requireStr titleV
  let description ← requireStr descrV
  .ok { id := tid, care_request_id := crid, title := title,
        description := description, category := category,
        priority := priority, status := TaskStatus.draft }

/-- Task loop of _parse_tasks: non-dict entries and entries without a title
key are skipped; every built task consumes one fresh id. -/
def parseTasksLoop (fresh : Nat → String) (crid : String) :
    Nat → List Json → Except PyErr (List CareTask × Nat)
  | k, [] => .ok ([], k)
  | k, d :: ds =>
    match d with
    | .obj flds =>
      if hasKey flds "title" then do
        let t ← buildTask2 crid ("task_" ++ fresh k) flds
        let (ts, k') ← parseTasksLoop fresh crid (k + 1) ds
        .ok (t :: ts, k')
      else parseTasksLoop fresh crid k ds
    | _ => parseTasksLoop fresh crid k ds

/-- Shape handling of _parse_tasks after json extraction: a bare array, or
an object with a tasks field; an empty raw array returns the empty list; a
nonempty raw array whose filtered result is empty is fatal. -/
def parse_tasks_core (fresh : Nat → String) (crid : String) (data : Json) :
    Except PyErr (List CareTask) := do
  let tasksData : Json ←
    match data with
    | .arr l => .ok (.arr l)
    | .obj f =>
      if hasKey f "tasks" then .ok (dictGet f "tasks" .null)
      else .error (.valueError
        ("Expected JSON array or object with tasks field, got " ++ data.typeName))
    | _ => .error (.valueError
        ("Expected JSON array or object with tasks field, got " ++ data.typeName))
  match tasksData with
  | .arr l =>
    if l.isEmpty then .ok []
    else do
      let (ts, _) ← parseTasksLoop fresh crid 0 l
      if ts.isEmpty then .error (.valueError "No valid tasks found in JSON response")
      else .ok ts
  | v => .error (.valueError ("Expected array of tasks, got " ++ v.typeName))

/-- Stage 2 wrap message. -/
def msgA2 : String :=
  "Agent A2 (Task Generation) failed to return valid JSON. Expected JSON array of task objects with title, description, category, and priority fields. "

/-- Model of AgentOrchestrator._parse_tasks. -/
def parse_tasks (fresh : Nat → String) (crid : String) (text : String) :
    Except PyErr (List CareTask) :=
  wrapStage msgA2 (do
    let data ← extract_json text
    parse_tasks_core fresh crid data)

/-- Title matching of stages 3, 4 and 5: the first previous-stage task whose
lowered title equals the lowered parsed title. The generator passed to next
only evaluates title.lower() when the previous list is nonempty. -/
def findMatch (prev : List CareTask) (titleV : Json) :
    Except PyErr (Option CareTask) :=
  match prev with
  | [] => .ok none
  | _ => do
    let tl ← jsonLower titleV
    .ok (prev.find? (fun t => pyLower t.title == tl))

/-- Loop body shared verbatim by _parse_reviewed_tasks,
_parse_optimized_tasks and the draft_tasks branch of _parse_review_packet:
builds a CareTask from a task object with a title key, reusing the id of a
title-matched previous task and minting a fresh id otherwise. -/
def buildMatched (fresh : Nat → String) (prev : List CareTask) (crid : String)
    (k : Nat) (flds : List (String × Json)) : Except PyErr (CareTask × Nat) := do
  let ptext ← jsonLower (dictGet flds "priority" (.str "medium"))
  let priority := priorityFromText ptext
  let titleV := dictGet flds "title" (.str "")
  let existing ← findMatch prev titleV
  let (tid, k') :=
    match existing with
    | some t => (t.id, k)
    | none => ("task_" ++ fresh k, k + 1)
  let descrV := dictGet flds "description" (.str "")
  let category ← jsonLower (dictGet flds "category" (.str "general"))
  let title ← requireStr titleV
  let description ← requireStr descrV
  .ok ({ id := tid, care_request_id := crid, title := title,
         description := description, category := category,
         priority := priority, status := TaskStatus.draft }, k')

/-- Task loop of the matching parsers: non-dict entries and entries without
a title key are skipped. -/
def parseMatchedLoop (fresh : Nat → String) (prev : List CareTask)
    (crid : String) : Nat → List Json → Except PyErr (List CareTask × Nat)
  | k, [] => .ok ([], k)
  | k, d :: ds =>
    match d with
    | .obj flds =>
      if hasKey flds "title" then do
        let (t, k') ← buildMatched fresh prev crid k flds
        let (ts, k'') ← parseMatchedLoop fresh prev crid k' ds
        .ok (t :: ts, k'')
      else parseMatchedLoop fresh prev crid k ds
    | _ => parseMatchedLoop fresh prev crid k ds

/-- Shape handling of _parse_reviewed_tasks (stage 3): requires an object
with a tasks array; an empty filtered result is fatal. -/
def parse_reviewed_core (fresh : Nat → String) (prev : List CareTask)
    (crid : String) (data : Json) : Except PyErr (List CareTask) := do
  let f ←
    match data with
    | .obj f => Except.ok f
    | _ => .error (.valueError
        ("Expected JSON object with tasks field, got " ++ data.typeName))
  if hasKey f "tasks" then
    match dictGet f "tasks" .null with
    | .arr l => do
      let (ts, _) ← parseMatchedLoop fresh prev crid 0 l
      if ts.isEmpty then .error (.valueError "No valid tasks found in JSON response")
      else .ok ts
    | v => .error (.valueError ("Expected tasks to be an array, got " ++ v.typeName))
  else .error (.valueError "JSON object missing required tasks field")

/-- Stage 3 wrap message. -/
def msgA3 : String :=
  "Agent A3 (Guardian & Quality Pass) failed to return valid JSON. Expected JSON object with tasks array and optional review_notes field. "

/-- Model of AgentOrchestrator._parse_reviewed_tasks. -/
def parse_reviewed_tasks (fresh : Nat → String) (draft_tasks : List CareTask)
    (crid : String) (text : String) : Except PyErr (List CareTask) :=
  wrapStage msgA3 (do
    let data ← extract_json text
    parse_reviewed_core fresh draft_tasks crid data)

/-- Shape handling of _parse_optimized_tasks (stage 4), duplicated in the
source from the stage 3 parser. -/
def parse_optimized_core (fresh : Nat → String) (prev : List CareTask)
    (crid : String) (data : Json) : Except PyErr (List CareTask) := do
  let f ←
    match data with
    | .obj f => Except.ok f
    | _ => .error (.valueError
        ("Expected JSON object with tasks field, got " ++ data.typeName))
  if hasKey f "tasks" then
    match dictGet f "tasks" .null with
    | .arr l => do
      let (ts, _) ← parseMatchedLoop fresh prev crid 0 l
      if ts.isEmpty then .error (.valueError "No valid tasks found in JSON response")
      else .ok ts
    | v => .error (.valueError ("Expected tasks to be an array, got " ++ v.typeName))
  else .error (.valueError "JSON object missing required tasks field")

/-- Stage 4 wrap message. -/
def msgA4 : String :=
  "Agent A4 (Optimization) failed to return valid JSON. Expected JSON object with tasks array and optional optimization_notes field. "

/-- Model of AgentOrchestrator._parse_optimized_tasks. -/
def parse_optimized_tasks (fresh : Nat → String) (reviewed_tasks : List CareTask)
    (crid : String) (text : String) : Except PyErr (List CareTask) :=
  wrapStage msgA4 (do
    let data ← extract_json text
    parse_optimized_core fresh reviewed_tasks crid data)

/-- Tail of _parse_review_packet after the task list is settled: the
suggested_plan_name computation is kept for its possible AttributeError,
but its value is dropped, since the pydantic ReviewPacket model has no such
field and ignores the extra keyword argument; summary and agent_notes pass
through the pydantic str coercion. -/
def assembleReviewPacket (fresh : Nat → String) (crid : String)
    (f : List (String × Json)) (finalTasks : List CareTask) (k : Nat) :
    Except PyErr ReviewPacket := do
  let suggestedV := dictGet f "suggested_plan_name" .null
  let _suggested ← if pyTruthy suggestedV then jsonStrip suggestedV else .ok ""
  let summary ← requireStr (dictGet f "summary" (.str ""))
  let agent_notes ← requireStr (dictGet f "agent_notes" (.str ""))
  .ok { id := "review_" ++ fresh k, care_request_id := crid, summary := summary,
        draft_tasks := finalTasks, agent_notes := agent_notes,
        approval_status := ApprovalStatus.pending }

/-- Shape handling of _parse_review_packet (stage 5): requires an object; a
draft_tasks list, when present and yielding at least one task, replaces the
stage 4 list, and the stage 4 list is used otherwise. -/
def parse_review_packet_core (fresh : Nat → String)
    (optimized_tasks : List CareTask) (crid : String) (data : Json) :
    Except PyErr ReviewPacket := do
  let f ←
    match data with
    | .obj f => Except.ok f
    | _ => .error (.valueError ("Expected JSON object, got " ++ data.typeName))
  let (finalTasks, k) ←
    if hasKey f "draft_tasks" then
      match dictGet f "draft_tasks" .null with
      | .arr l => do
        let (parsed, k) ← parseMatchedLoop fresh optimized_tasks crid 0 l
        Except.ok (if parsed.isEmpty then optimized_tasks else parsed, k)
      | _ => Except.ok (optimized_tasks, 0)
    else Except.ok (optimized_tasks, 0)
  assembleReviewPacket fresh crid f finalTasks k

/-- Stage 5 wrap message. -/
def msgA5 : String :=
  "Agent A5 (Review Packet Assembly) failed to return valid JSON. Expected JSON object with summary, draft_tasks, agent_notes, and approval_status fields. "

/-- Model of AgentOrchestrator._parse_review_packet. -/
def parse_review_packet (fresh : Nat → String)
    (optimized_tasks : List CareTask) (crid : String) (text : String) :
    Except PyErr ReviewPacket :=
  wrapStage msgA5 (do
    let data ← extract_json text
    parse_review_packet_core fresh optimized_tasks crid data)

/-! ## Job Runner (app/services/job_runner.py)

A pipeline run is abstracted as the sequence of progress-callback events it
emits followed by its outcome: the returned ReviewPacket or the raised
exception. JobRunner._execute_job is then a deterministic state transform
with an observable trace of intermediate job states. -/

structure PipelineRun where
  events : List (String × String)
  outcome : Except PyErr ReviewPacket

/-- Job created by JobRunner.enqueue_job before execution starts. -/
def enqueue_job (fresh : Nat → String) (cr : CareRequest) : Job :=
  { id := "job_" ++ fresh 0, care_request_id := cr.id, care_request := some cr,
    status := JobStatus.queued, current_agent := none, agent_progress := [],
    error := none, result := none }

/-- Model of the update_progress closure of _execute_job. -/
def applyProgress (j : Job) (ev : String × String) : Job :=
  { j with current_agent := some ev.1,
           agent_progress := upsert j.agent_progress ev.1 ev.2 }

/-- The job.result dictionary built on success. -/
def mkJobResult (p : ReviewPacket) : JobResult :=
  { review_packet_id := p.id, summary := p.summary,
    task_count := p.draft_tasks.length, tasks := p.draft_tasks,
    agent_notes := p.agent_notes }

/-- Terminal update of _execute_job: the success branch stores the result
and advances the care request to completed; the except branch, reached by
every exception kind, marks the job failed with a prefixed message and
resets the care request to submitted. -/
def finalizeJob (j : Job) (outcome : Except PyErr ReviewPacket) : Job :=
  match outcome with
  | .ok packet =>
    { j with result := some (mkJobResult packet), status := JobStatus.completed,
             current_agent := none,
             care_request := j.care_request.map
               (fun cr => { cr with status := RequestStatus.completed }) }
  | .error e =>
    { j with status := JobStatus.failed,
             error := some ("Job execution failed: " ++ e.msg),
             current_agent := none,
             care_request := j.care_request.map
               (fun cr => { cr with status := RequestStatus.submitted }) }

/-- Model of JobRunner._execute_job: set running, fail early when the job
carries no care request, otherwise apply the run's progress events and
finalize with its outcome. -/
def executeJob (j : Job) (run : PipelineRun) : Job :=
  let j1 := { j with status := JobStatus.running }
  match j1.care_request with
  | none => finalizeJob j1 (.error (.valueError ("No care request found for job " ++ j.id)))
  | some _ => finalizeJob (run.events.foldl applyProgress j1) run.outcome

/-- Intermediate job states produced by the successive progress events. -/
def progressStates (j : Job) : List (String × String) → List Job
  | [] => []
  | ev :: evs => applyProgress j ev :: progressStates (applyProgress j ev) evs

/-- Observable state trace of one _execute_job call, starting from the
enqueued state. -/
def executeTrace (j : Job) (run : PipelineRun) : List Job :=
  let j1 := { j with status := JobStatus.running }
  match j1.care_request with
  | none => [j, j1, finalizeJob j1 (.error (.valueError ("No care request found for job " ++ j.id)))]
  | some _ =>
    j :: j1 :: (progressStates j1 run.events
      ++ [finalizeJob (run.events.foldl applyProgress j1) run.outcome])

/-! ## Supporting lemmas: strings and dictionaries -/

theorem string_data_append (a b : String) : (a ++ b).data = a.data ++ b.data := rfl

theorem string_mk_data (s : String) : String.mk s.data = s := rfl

theorem listInfixOf_append (sub pre suf : List Char) :
    listInfixOf sub (pre ++ sub ++ suf) = true := by
  induction pre with
  | nil =>
    simp only [List.nil_append]
    have hpre : sub <+: sub ++ suf := List.prefix_append sub suf
    cases h : sub ++ suf with
    | nil =>
      have h1 : sub = [] := (List.append_eq_nil.mp h).1
      simp [listInfixOf, h1]
    | cons c rest =>
      have hp : sub.isPrefixOf (c :: rest) = true :=
        List.isPrefixOf_iff_prefix.mpr (h ▸ hpre)
      simp [listInfixOf, hp]
  | cons c pre ih =>
    simp only [List.cons_append]
    rw [listInfixOf, ih, Bool.or_true]

theorem dictGet_of_find {m : List (String × Json)} {k : String} {v : Json}
    (h : dictFind m k = some v) (d : Json) : dictGet m k d = v := by
  simp [dictGet, h]

theorem dictGet_of_none {m : List (String × Json)} {k : String}
    (h : dictFind m k = none) (d : Json) : dictGet m k d = d := by
  simp [dictGet, h]

theorem hasKey_of_find {m : List (String × Json)} {k : String} {v : Json}
    (h : dictFind m k = some v) : hasKey m k = true := by
  simp [hasKey, h]

theorem hasKey_of_none {m : List (String × Json)} {k : String}
    (h : dictFind m k = none) : hasKey m k = false := by
  simp [hasKey, h]

theorem upsert_keys_mono {α : Type} (m : List (String × α)) (k : String)
    (v : α) (a : String) (h : a ∈ m.map Prod.fst) :
    a ∈ (upsert m k v).map Prod.fst := by
  induction m with
  | nil => simp at h
  | cons p rest ih =>
    simp only [List.map_cons, List.mem_cons] at h
    by_cases hk : p.1 = k
    · simp only [upsert, if_pos hk]
      rcases h with h | h
      · simp [h, hk]
      · simp [h]
    · simp only [upsert, if_neg hk]
      rcases h with h | h
      · simp [h]
      · simp [ih h]

theorem jsonLower_nonstr {v : Json} (h : ∀ s, v ≠ .str s) :
    jsonLower v = .error (.attributeError (v.typeName ++ " object has no attribute lower")) := by
  cases v with
  | str s => exact absurd rfl (h s)
  | null => rfl
  | bool b => rfl
  | num n => rfl
  | arr l => rfl
  | obj f => rfl

/-! ## Supporting lemmas: job runner -/

theorem applyProgress_status (j : Job) (ev : String × String) :
    (applyProgress j ev).status = j.status := rfl

theorem foldl_applyProgress_status (evs : List (String × String)) (j : Job) :
    (evs.foldl applyProgress j).status = j.status := by
  induction evs generalizing j with
  | nil => rfl
  | cons ev evs ih => simpa [List.foldl_cons] using ih (applyProgress j ev)

theorem foldl_applyProgress_care (evs : List (String × String)) (j : Job) :
    (evs.foldl applyProgress j).care_request = j.care_request := by
  induction evs generalizing j with
  | nil => rfl
  | cons ev evs ih => simpa [List.foldl_cons] using ih (applyProgress j ev)

/-- Allowed forward status transitions of a job, per the claimed invariant:
stay put, queued to running, or running to a terminal status. -/
def statusStep (a b : Job) : Prop :=
  a.status = b.status ∨
  (a.status = JobStatus.queued ∧ b.status = JobStatus.running) ∨
  (a.status = JobStatus.running ∧
    (b.status = JobStatus.completed ∨ b.status = JobStatus.failed))

/-- Progress-map growth: every stage key present before a step is still
present after it. -/
def progMono (a b : Job) : Prop :=
  ∀ key ∈ a.agent_progress.map Prod.fst, key ∈ b.agent_progress.map Prod.fst

theorem chain'_progressStates (R : Job → Job → Prop)
    (h : ∀ j ev, R j (applyProgress j ev)) :
    ∀ (evs : List (String × String)) (j : Job),
      List.Chain' R (j :: progressStates j evs)
  | [], j => List.chain'_singleton j
  | ev :: evs, j => by
    rw [progressStates, List.chain'_cons]
    exact ⟨h j ev, chain'_progressStates R h evs (applyProgress j ev)⟩

theorem getLast_progressStates (evs : List (String × String)) (j : Job) :
    (j :: progressStates j evs).getLast? = some (evs.foldl applyProgress j) := by
  induction evs generalizing j with
  | nil => rfl
  | cons ev evs ih =>
    rw [progressStates, List.getLast?_cons_cons, List.foldl_cons]
    exact ih (applyProgress j ev)

theorem finalizeJob_status_error (j : Job) (e : PyErr) :
    (finalizeJob j (.error e)).status = JobStatus.failed := rfl

theorem finalizeJob_status (j : Job) (o : Except PyErr ReviewPacket) :
    (finalizeJob j o).status = JobStatus.completed ∨
    (finalizeJob j o).status = JobStatus.failed := by
  cases o with
  | ok p => exact Or.inl rfl
  | error e => exact Or.inr rfl

theorem finalizeJob_progress (j : Job) (o : Except PyErr ReviewPacket) :
    (finalizeJob j o).agent_progress = j.agent_progress := by
  cases o with
  | ok p => rfl
  | error e => rfl

theorem failed_ne_running : JobStatus.failed ≠ JobStatus.running := by decide

/-! ## Claim C2 -/

/-- C2: whatever exception the pipeline run raises, _execute_job leaves the
job failed with a nonempty error message, never running, and resets an
associated care request to submitted. The early ValueError raised when the
job carries no care request reaches the same except branch, so the
conclusion needs no assumption on the care request. -/
theorem claim_C2_job_failure (j : Job) (run : PipelineRun) (e : PyErr)
    (h : run.outcome = .error e) :
    (executeJob j run).status = JobStatus.failed ∧
    (executeJob j run).status ≠ JobStatus.running ∧
    (∃ m, (executeJob j run).error = some m ∧ m ≠ "") ∧
    (∀ cr, j.care_request = some cr →
      (executeJob j run).care_request =
        some { cr with status := RequestStatus.submitted }) := by
  have hmsg : ∀ s : String, "Job execution failed: " ++ s ≠ "" := by
    intro s hs
    have h2 : ("Job execution failed: " ++ s).data.length = ("" : String).data.length :=
      congrArg (fun t => t.data.length) hs
    rw [string_data_append, List.length_append,
      show "Job execution failed: ".data.length = 22 from rfl,
      show ("" : String).data.length = 0 from rfl] at h2
    omega
  cases hc : j.care_request with
  | none =>
    have hex : executeJob j run =
        finalizeJob { j with status := JobStatus.running }
          (.error (.valueError ("No care request found for job " ++ j.id))) := by
      unfold executeJob
      simp only [hc]
    refine ⟨by rw [hex]; rfl, ?_, ?_, ?_⟩
    · rw [hex]; exact failed_ne_running
    · exact ⟨_, by rw [hex]; rfl, hmsg _⟩
    · intro cr hcr
      exact absurd hcr (by simp)
  | some cr0 =>
    have hex : executeJob j run =
        finalizeJob (run.events.foldl applyProgress { j with status := JobStatus.running })
          run.outcome := by
      unfold executeJob
      simp only [hc]
    rw [hex, h]
    refine ⟨rfl, failed_ne_running, ⟨_, rfl, hmsg _⟩, ?_⟩
    intro cr hcr
    have hcr' : cr0 = cr := Option.some_inj.mp hcr
    have hc2 : (run.events.foldl applyProgress
        { j with status := JobStatus.running }).care_request = some cr0 := by
      rw [foldl_applyProgress_care]
      exact hc
    simp only [finalizeJob, hc2, Option.map_some']
    rw [hcr']

/-- C2 witness: a concrete failing run on a concrete enqueued job. -/
theorem claim_C2_job_failure_witness :
    (executeJob
      (enqueue_job (fun n => toString n)
        { id := "cr_1", narrative := "help", constraints := none,
          boundaries := none, status := RequestStatus.processing })
      { events := [("A1", "running")],
        outcome := .error (.valueError "boom") }).status = JobStatus.failed ∧
    (executeJob
      (enqueue_job (fun n => toString n)
        { id := "cr_1", narrative := "help", constraints := none,
          boundaries := none, status := RequestStatus.processing })
      { events := [("A1", "running")],
        outcome := .error (.valueError "boom") }).care_request =
      some { id := "cr_1", narrative := "help", constraints := none,
             boundaries := none, status := RequestStatus.submitted } := by
  have h := claim_C2_job_failure
    (enqueue_job (fun n => toString n)
      { id := "cr_1", narrative := "help", constraints := none,
        boundaries := none, status := RequestStatus.processing })
    { events := [("A1", "running")], outcome := .error (.valueError "boom") }
    (.valueError "boom") rfl
  exact ⟨h.1, h.2.2.2 _ rfl⟩

/-! ## Supporting lemmas: Except plumbing and parser inversion -/

theorem exbind_ok {ε α β : Type} (a : α) (f : α → Except ε β) :
    ((Except.ok a : Except ε α) >>= f) = f a := rfl

theorem exbind_error {ε α β : Type} (e : ε) (f : α → Except ε β) :
    ((Except.error e : Except ε α) >>= f) = Except.error e := rfl

theorem requireStr_ok_inv {v : Json} {s : String} (h : requireStr v = .ok s) :
    v = .str s := by
  cases v with
  | str s' =>
    simp only [requireStr, Except.ok.injEq] at h
    rw [h]
  | null => exact absurd h (by simp [requireStr])
  | bool b => exact absurd h (by simp [requireStr])
  | num n => exact absurd h (by simp [requireStr])
  | arr l => exact absurd h (by simp [requireStr])
  | obj f => exact absurd h (by simp [requireStr])

theorem findMatch_str {prev : List CareTask} {titleV : Json} {s : String}
    (h : titleV = .str s) :
    findMatch prev titleV =
      .ok (prev.find? (fun p => pyLower p.title == pyLower s)) := by
  subst h
  cases prev with
  | nil => rfl
  | cons a as => simp [findMatch, jsonLower, exbind_ok]

theorem buildTask2_ok_inv {crid tid : String} {flds : List (String × Json)}
    {t : CareTask} (hb : buildTask2 crid tid flds = .ok t) :
    ∃ ptext cat,
      jsonLower (dictGet flds "priority" (.str "medium")) = .ok ptext ∧
      jsonLower (dictGet flds "category" (.str "general")) = .ok cat ∧
      requireStr (dictGet flds "title" (.str "Untitled Task")) = .ok t.title ∧
      requireStr (dictGet flds "description" (.str "")) = .ok t.description ∧
      t = { id := tid, care_request_id := crid, title := t.title,
            description := t.description, category := cat,
            priority := priorityFromText ptext, status := TaskStatus.draft } := by
  unfold buildTask2 at hb
  dsimp only at hb
  cases hpt : jsonLower (dictGet flds "priority" (.str "medium")) with
  | error e => rw [hpt, exbind_error] at hb; exact absurd hb (by simp)
  | ok ptext =>
    rw [hpt, exbind_ok] at hb
    cases hcat : jsonLower (dictGet flds "category" (.str "general")) with
    | error e => rw [hcat, exbind_error] at hb; exact absurd hb (by simp)
    | ok cat =>
      rw [hcat, exbind_ok] at hb
      cases htl : requireStr (dictGet flds "title" (.str "Untitled Task")) with
      | error e => rw [htl, exbind_error] at hb; exact absurd hb (by simp)
      | ok title =>
        rw [htl, exbind_ok] at hb
        cases hd : requireStr (dictGet flds "description" (.str "")) with
        | error e => rw [hd, exbind_error] at hb; exact absurd hb (by simp)
        | ok descr =>
          rw [hd, exbind_ok] at hb
          injection hb with h
          subst h
          exact ⟨ptext, cat, rfl, rfl, rfl, rfl, rfl⟩

theorem buildMatched_ok_inv {fresh : Nat → String} {prev : List CareTask}
    {crid : String} {k : Nat} {flds : List (String × Json)} {t : CareTask}
    {k' : Nat} (hb : buildMatched fresh prev crid k flds = .ok (t, k')) :
    ∃ ptext existing cat,
      jsonLower (dictGet flds "priority" (.str "medium")) = .ok ptext ∧
      findMatch prev (dictGet flds "title" (.str "")) = .ok existing ∧
      jsonLower (dictGet flds "category" (.str "general")) = .ok cat ∧
      requireStr (dictGet flds "title" (.str "")) = .ok t.title ∧
      requireStr (dictGet flds "description" (.str "")) = .ok t.description ∧
      t.priority = priorityFromText ptext ∧
      t.status = TaskStatus.draft ∧
      t.care_request_id = crid ∧
      ((∃ pt, existing = some pt ∧ t.id = pt.id ∧ k' = k) ∨
        (existing = none ∧ t.id = "task_" ++ fresh k ∧ k' = k + 1)) := by
  unfold buildMatched at hb
  dsimp only at hb
  cases hpt : jsonLower (dictGet flds "priority" (.str "medium")) with
  | error e => rw [hpt, exbind_error] at hb; exact absurd hb (by simp)
  | ok ptext =>
    rw [hpt, exbind_ok] at hb
    cases hex : findMatch prev (dictGet flds "title" (.str "")) with
    | error e => rw [hex, exbind_error] at hb; exact absurd hb (by simp)
    | ok existing =>
      rw [hex, exbind_ok] at hb
      cases hcat : jsonLower (dictGet flds "category" (.str "general")) with
      | error e =>
        cases existing with
        | some pt => rw [hcat, exbind_error] at hb; exact absurd hb (by simp)
        | none => rw [hcat, exbind_error] at hb; exact absurd hb (by simp)
      | ok cat =>
        cases existing with
        | some pt =>
          rw [hcat, exbind_ok] at hb
          cases htl : requireStr (dictGet flds "title" (.str "")) with
          | error e => rw [htl, exbind_error] at hb; exact absurd hb (by simp)
          | ok title =>
            rw [htl, exbind_ok] at hb
            cases hd : requireStr (dictGet flds "description" (.str "")) with
            | error e => rw [hd, exbind_error] at hb; exact absurd hb (by simp)
            | ok descr =>
              rw [hd, exbind_ok] at hb
              injection hb with h
              injection h with h1 h2
              subst h1
              subst h2
              exact ⟨ptext, some pt, cat, rfl, rfl, rfl, rfl, rfl, rfl, rfl, rfl,
                Or.inl ⟨pt, rfl, rfl, rfl⟩⟩
        | none =>
          rw [hcat, exbind_ok] at hb
          cases htl : requireStr (dictGet flds "title" (.str "")) with
          | error e => rw [htl, exbind_error] at hb; exact absurd hb (by simp)
          | ok title =>
            rw [htl, exbind_ok] at hb
            cases hd : requireStr (dictGet flds "description" (.str "")) with
            | error e => rw [hd, exbind_error] at hb; exact absurd hb (by simp)
            | ok descr =>
              rw [hd, exbind_ok] at hb
              injection hb with h
              injection h with h1 h2
              subst h1
              subst h2
              exact ⟨ptext, none, cat, rfl, rfl, rfl, rfl, rfl, rfl, rfl, rfl,
                Or.inr ⟨rfl, rfl, rfl⟩⟩

theorem buildTask2_attr {crid tid : String} {flds : List (String × Json)}
    {pv : Json} (hp : dictFind flds "priority" = some pv)
    (hnv : ∀ s, pv ≠ .str s) :
    buildTask2 crid tid flds =
      .error (.attributeError (pv.typeName ++ " object has no attribute lower")) := by
  unfold buildTask2
  rw [dictGet_of_find hp, jsonLower_nonstr hnv, exbind_error]

theorem buildMatched_attr {fresh : Nat → String} {prev : List CareTask}
    {crid : String} {k : Nat} {flds : List (String × Json)} {pv : Json}
    (hp : dictFind flds "priority" = some pv) (hnv : ∀ s, pv ≠ .str s) :
    buildMatched fresh prev crid k flds =
      .error (.attributeError (pv.typeName ++ " object has no attribute lower")) := by
  unfold buildMatched
  rw [dictGet_of_find hp, jsonLower_nonstr hnv, exbind_error]

theorem parseTasksLoop_append (fresh : Nat → String) (crid : String)
    (xs ys : List Json) (k : Nat) :
    parseTasksLoop fresh crid k (xs ++ ys) =
      match parseTasksLoop fresh crid k xs with
      | .error e => .error e
      | .ok (ts, k') =>
        match parseTasksLoop fresh crid k' ys with
        | .error e => .error e
        | .ok (ts2, k'') => .ok (ts ++ ts2, k'') := by
  induction xs generalizing k with
  | nil =>
    simp only [List.nil_append]
    rw [show parseTasksLoop fresh crid k ([] : List Json) = .ok ([], k) from rfl]
    dsimp only
    cases h : parseTasksLoop fresh crid k ys with
    | error e => rfl
    | ok p =>
      obtain ⟨ts2, k''⟩ := p
      simp
  | cons d xs ih =>
    simp only [List.cons_append]
    cases d with
    | obj flds =>
      cases ht : hasKey flds "title" with
      | false =>
        rw [parseTasksLoop, parseTasksLoop, ht]
        simp only [Bool.false_eq_true, if_false]
        exact ih k
      | true =>
        rw [parseTasksLoop, parseTasksLoop, ht]
        simp only [if_true]
        cases hb : buildTask2 crid ("task_" ++ fresh k) flds with
        | error e => rw [exbind_error, exbind_error]
        | ok t =>
          rw [exbind_ok, exbind_ok, ih (k + 1)]
          cases h1 : parseTasksLoop fresh crid (k + 1) xs with
          | error e => rfl
          | ok p =>
            obtain ⟨ts, k'⟩ := p
            rw [exbind_ok]
            dsimp only
            cases h2 : parseTasksLoop fresh crid k' ys with
            | error e => rfl
            | ok q =>
              obtain ⟨ts2, k''⟩ := q
              simp [exbind_ok]
    | null => exact ih k
    | bool b => exact ih k
    | num n => exact ih k
    | str s => exact ih k
    | arr l => exact ih k

theorem parseMatchedLoop_append (fresh : Nat → String) (prev : List CareTask)
    (crid : String) (xs ys : List Json) (k : Nat) :
    parseMatchedLoop fresh prev crid k (xs ++ ys) =
      match parseMatchedLoop fresh prev crid k xs with
      | .error e => .error e
      | .ok (ts, k') =>
        match parseMatchedLoop fresh prev crid k' ys with
        | .error e => .error e
        | .ok (ts2, k'') => .ok (ts ++ ts2, k'') := by
  induction xs generalizing k with
  | nil =>
    simp only [List.nil_append]
    rw [show parseMatchedLoop fresh prev crid k ([] : List Json) = .ok ([], k) from rfl]
    dsimp only
    cases h : parseMatchedLoop fresh prev crid k ys with
    | error e => rfl
    | ok p =>
      obtain ⟨ts2, k''⟩ := p
      simp
  | cons d xs ih =>
    simp only [List.cons_append]
    cases d with
    | obj flds =>
      cases ht : hasKey flds "title" with
      | false =>
        rw [parseMatchedLoop, parseMatchedLoop, ht]
        simp only [Bool.false_eq_true, if_false]
        exact ih k
      | true =>
        rw [parseMatchedLoop, parseMatchedLoop, ht]
        simp only [if_true]
        cases hb : buildMatched fresh prev crid k flds with
        | error e => rw [exbind_error, exbind_error]
        | ok p =>
          obtain ⟨t, k0⟩ := p
          rw [exbind_ok, exbind_ok, ih k0]
          cases h1 : parseMatchedLoop fresh prev crid k0 xs with
          | error e => rfl
          | ok p =>
            obtain ⟨ts, k'⟩ := p
            rw [exbind_ok]
            dsimp only
            cases h2 : parseMatchedLoop fresh prev crid k' ys with
            | error e => rfl
            | ok q =>
              obtain ⟨ts2, k''⟩ := q
              simp [exbind_ok]
    | null => exact ih k
    | bool b => exact ih k
    | num n => exact ih k
    | str s => exact ih k
    | arr l => exact ih k

/-- A json entry skipped by the task loops: not an object, or an object
without a title key. -/
def skippedEntry (d : Json) : Prop :=
  ∀ flds, d = Json.obj flds → hasKey flds "title" = false

theorem parseTasksLoop_skip_cons (fresh : Nat → String) (crid : String)
    {d : Json} (hd : skippedEntry d) (k : Nat) (ds : List Json) :
    parseTasksLoop fresh crid k (d :: ds) = parseTasksLoop fresh crid k ds := by
  cases d with
  | obj flds =>
    rw [parseTasksLoop, hd flds rfl]
    simp only [Bool.false_eq_true, if_false]
  | null => rfl
  | bool b => rfl
  | num n => rfl
  | str s => rfl
  | arr l => rfl

theorem parseMatchedLoop_skip_cons (fresh : Nat → String) (prev : List CareTask)
    (crid : String) {d : Json} (hd : skippedEntry d) (k : Nat) (ds : List Json) :
    parseMatchedLoop fresh prev crid k (d :: ds) =
      parseMatchedLoop fresh prev crid k ds := by
  cases d with
  | obj flds =>
    rw [parseMatchedLoop, hd flds rfl]
    simp only [Bool.false_eq_true, if_false]
  | null => rfl
  | bool b => rfl
  | num n => rfl
  | str s => rfl
  | arr l => rfl

theorem parseTasksLoop_skip (fresh : Nat → String) (crid : String)
    {d : Json} (hd : skippedEntry d) (k : Nat) (xs ys : List Json) :
    parseTasksLoop fresh crid k (xs ++ d :: ys) =
      parseTasksLoop fresh crid k (xs ++ ys) := by
  rw [parseTasksLoop_append, parseTasksLoop_append]
  cases h : parseTasksLoop fresh crid k xs with
  | error e => rfl
  | ok p =>
    obtain ⟨ts, k'⟩ := p
    dsimp only
    rw [parseTasksLoop_skip_cons fresh crid hd k' ys]

theorem parseMatchedLoop_skip (fresh : Nat → String) (prev : List CareTask)
    (crid : String) {d : Json} (hd : skippedEntry d) (k : Nat) (xs ys : List Json) :
    parseMatchedLoop fresh prev crid k (xs ++ d :: ys) =
      parseMatchedLoop fresh prev crid k (xs ++ ys) := by
  rw [parseMatchedLoop_append, parseMatchedLoop_append]
  cases h : parseMatchedLoop fresh prev crid k xs with
  | error e => rfl
  | ok p =>
    obtain ⟨ts, k'⟩ := p
    dsimp only
    rw [parseMatchedLoop_skip_cons fresh prev crid hd k' ys]

theorem parseMatchedLoop_mem {fresh : Nat → String} {prev : List CareTask}
    {crid : String} :
    ∀ {l : List Json} {k k' : Nat} {ts : List CareTask},
      parseMatchedLoop fresh prev crid k l = .ok (ts, k') →
      ∀ t ∈ ts, ∃ flds kk kk', Json.obj flds ∈ l ∧ hasKey flds "title" = true ∧
        buildMatched fresh prev crid kk flds = .ok (t, kk')
  | [], k, k', ts, h, t, ht => by
    rw [show parseMatchedLoop fresh prev crid k ([] : List Json) = .ok ([], k) from rfl]
      at h
    injection h with h1
    injection h1 with h2 h3
    rw [← h2] at ht
    exact absurd ht (by simp)
  | d :: ds, k, k', ts, h, t, ht => by
    cases d with
    | obj flds =>
      cases hk : hasKey flds "title" with
      | false =>
        rw [parseMatchedLoop_skip_cons fresh prev crid
          (fun f hf => by cases hf; exact hk) k ds] at h
        obtain ⟨flds', kk, kk', hmem, hk', hb⟩ := parseMatchedLoop_mem h t ht
        exact ⟨flds', kk, kk', List.mem_cons_of_mem _ hmem, hk', hb⟩
      | true =>
        rw [parseMatchedLoop, hk] at h
        simp only [if_true] at h
        cases hb : buildMatched fresh prev crid k flds with
        | error e => rw [hb, exbind_error] at h; exact absurd h (by simp)
        | ok p =>
          obtain ⟨t0, k0⟩ := p
          rw [hb, exbind_ok] at h
          cases hrest : parseMatchedLoop fresh prev crid k0 ds with
          | error e => rw [hrest, exbind_error] at h; exact absurd h (by simp)
          | ok q =>
            obtain ⟨ts1, k1⟩ := q
            rw [hrest, exbind_ok] at h
            injection h with h1
            injection h1 with h2 h3
            rw [← h2] at ht
            rcases List.mem_cons.mp ht with h4 | h4
            · exact ⟨flds, k, k0, List.mem_cons_self _ _, hk, h4 ▸ hb⟩
            · obtain ⟨flds', kk, kk', hmem, hk', hb'⟩ :=
                parseMatchedLoop_mem hrest t h4
              exact ⟨flds', kk, kk', List.mem_cons_of_mem _ hmem, hk', hb'⟩
    | null =>
      obtain ⟨flds', kk, kk', hmem, hk', hb⟩ := parseMatchedLoop_mem
        (show parseMatchedLoop fresh prev crid k ds = .ok (ts, k') from h) t ht
      exact ⟨flds', kk, kk', List.mem_cons_of_mem _ hmem, hk', hb⟩
    | bool b =>
      obtain ⟨flds', kk, kk', hmem, hk', hb⟩ := parseMatchedLoop_mem
        (show parseMatchedLoop fresh prev crid k ds = .ok (ts, k') from h) t ht
      exact ⟨flds', kk, kk', List.mem_cons_of_mem _ hmem, hk', hb⟩
    | num n =>
      obtain ⟨flds', kk, kk', hmem, hk', hb⟩ := parseMatchedLoop_mem
        (show parseMatchedLoop fresh prev crid k ds = .ok (ts, k') from h) t ht
      exact ⟨flds', kk, kk', List.mem_cons_of_mem _ hmem, hk', hb⟩
    | str s =>
      obtain ⟨flds', kk, kk', hmem, hk', hb⟩ := parseMatchedLoop_mem
        (show parseMatchedLoop fresh prev crid k ds = .ok (ts, k') from h) t ht
      exact ⟨flds', kk, kk', List.mem_cons_of_mem _ hmem, hk', hb⟩
    | arr l =>
      obtain ⟨flds', kk, kk', hmem, hk', hb⟩ := parseMatchedLoop_mem
        (show parseMatchedLoop fresh prev crid k ds = .ok (ts, k') from h) t ht
      exact ⟨flds', kk, kk', List.mem_cons_of_mem _ hmem, hk', hb⟩

theorem assembleReviewPacket_ok_inv {fresh : Nat → String} {crid : String}
    {f : List (String × Json)} {ft : List CareTask} {k : Nat} {p : ReviewPacket}
    (h : assembleReviewPacket fresh crid f ft k = .ok p) :
    p.draft_tasks = ft ∧ p.approval_status = ApprovalStatus.pending := by
  unfold assembleReviewPacket at h
  dsimp only at h
  cases hs : pyTruthy (dictGet f "suggested_plan_name" Json.null) with
  | false =>
    simp only [hs, Bool.false_eq_true, if_false, exbind_ok] at h
    cases hsum : requireStr (dictGet f "summary" (.str "")) with
    | error e => rw [hsum, exbind_error] at h; exact absurd h (by simp)
    | ok summary =>
      rw [hsum, exbind_ok] at h
      cases hn : requireStr (dictGet f "agent_notes" (.str "")) with
      | error e => rw [hn, exbind_error] at h; exact absurd h (by simp)
      | ok notes =>
        rw [hn, exbind_ok] at h
        injection h with h1
        rw [← h1]
        exact ⟨rfl, rfl⟩
  | true =>
    simp only [hs, if_true] at h
    cases hg : jsonStrip (dictGet f "suggested_plan_name" Json.null) with
    | error e => rw [hg, exbind_error] at h; exact absurd h (by simp)
    | ok sg =>
      rw [hg, exbind_ok] at h
      cases hsum : requireStr (dictGet f "summary" (.str "")) with
      | error e => rw [hsum, exbind_error] at h; exact absurd h (by simp)
      | ok summary =>
        rw [hsum, exbind_ok] at h
        cases hn : requireStr (dictGet f "agent_notes" (.str "")) with
        | error e => rw [hn, exbind_error] at h; exact absurd h (by simp)
        | ok notes =>
          rw [hn, exbind_ok] at h
          injection h with h1
          rw [← h1]
          exact ⟨rfl, rfl⟩

theorem parse_review_packet_core_nonobj {fresh : Nat → String}
    {opt : List CareTask} {crid : String} {data : Json}
    (h : ∀ f, data ≠ .obj f) :
    parse_review_packet_core fresh opt crid data =
      .error (.valueError ("Expected JSON object, got " ++ data.typeName)) := by
  cases data with
  | obj f => exact absurd rfl (h f)
  | null => rfl
  | bool b => rfl
  | num n => rfl
  | str s => rfl
  | arr l => rfl

theorem parse_review_packet_core_obj_inv {fresh : Nat → String}
    {opt : List CareTask} {crid : String} {f : List (String × Json)}
    {p : ReviewPacket}
    (hp : parse_review_packet_core fresh opt crid (.obj f) = .ok p) :
    (∃ l parsed k, hasKey f "draft_tasks" = true ∧
      dictGet f "draft_tasks" .null = .arr l ∧
      parseMatchedLoop fresh opt crid 0 l = .ok (parsed, k) ∧
      p.draft_tasks = (if parsed.isEmpty then opt else parsed)) ∨
    (p.draft_tasks = opt ∧
      (hasKey f "draft_tasks" = false ∨
        ∀ l, dictGet f "draft_tasks" .null ≠ .arr l)) := by
  unfold parse_review_packet_core at hp
  dsimp only at hp
  rw [exbind_ok] at hp
  cases hk : hasKey f "draft_tasks" with
  | false =>
    rw [hk] at hp
    simp only [Bool.false_eq_true, if_false, exbind_ok] at hp
    exact Or.inr ⟨(assembleReviewPacket_ok_inv hp).1, Or.inl rfl⟩
  | true =>
    rw [hk] at hp
    simp only [if_true] at hp
    cases hv : dictGet f "draft_tasks" Json.null with
    | arr l =>
      rw [hv] at hp
      dsimp only at hp
      cases hl : parseMatchedLoop fresh opt crid 0 l with
      | error e =>
        simp only [hl, exbind_error] at hp
        exact absurd hp (by simp)
      | ok q =>
        obtain ⟨parsed, k⟩ := q
        rw [hl] at hp
        simp only [exbind_ok] at hp
        exact Or.inl ⟨l, parsed, k, rfl, rfl, hl, (assembleReviewPacket_ok_inv hp).1⟩
    | null =>
      rw [hv] at hp
      simp only [exbind_ok] at hp
      exact Or.inr ⟨(assembleReviewPacket_ok_inv hp).1,
        Or.inr (fun l hl => Json.noConfusion hl)⟩
    | bool b =>
      rw [hv] at hp
      simp only [exbind_ok] at hp
      exact Or.inr ⟨(assembleReviewPacket_ok_inv hp).1,
        Or.inr (fun l hl => Json.noConfusion hl)⟩
    | num n =>
      rw [hv] at hp
      simp only [exbind_ok] at hp
      exact Or.inr ⟨(assembleReviewPacket_ok_inv hp).1,
        Or.inr (fun l hl => Json.noConfusion hl)⟩
    | str s =>
      rw [hv] at hp
      simp only [exbind_ok] at hp
      exact Or.inr ⟨(assembleReviewPacket_ok_inv hp).1,
        Or.inr (fun l hl => Json.noConfusion hl)⟩
    | obj g =>
      rw [hv] at hp
      simp only [exbind_ok] at hp
      exact Or.inr ⟨(assembleReviewPacket_ok_inv hp).1,
        Or.inr (fun l hl => Json.noConfusion hl)⟩

/-! ## Claim C6 -/

/-- C6 counterexample: the priority string Low contains, case-sensitively,
neither the substring high nor the substring low, so the claim as stated
maps it to medium; the stage parser lowercases the value before the
substring checks and yields low. -/
theorem claim_C6_counterexample :
    strContains "Low" "high" = false ∧ strContains "Low" "low" = false ∧
    parse_tasks (fun n => toString n) "cr"
      "[\x7b\"title\": \"t\", \"priority\": \"Low\"\x7d]" =
      .ok [{ id := "task_0", care_request_id := "cr", title := "t",
             description := "", category := "general",
             priority := TaskPriority.low, status := TaskStatus.draft }] :=
  ⟨rfl, rfl, rfl⟩

/-- C6 amended: priority normalization is total and deterministic with the
substring checks read case-insensitively: the parsers lowercase the priority
string first, so a priority whose lowercased form contains high maps to
high, otherwise one whose lowercased form contains low maps to low, and
anything else, including an absent priority field, maps to medium. -/
theorem claim_C6_amended (s crid tid : String) (flds : List (String × Json))
    (t : CareTask) :
    (strContains (pyLower s) "high" = true → mapPriority s = TaskPriority.high) ∧
    (strContains (pyLower s) "high" = false → strContains (pyLower s) "low" = true →
      mapPriority s = TaskPriority.low) ∧
    (strContains (pyLower s) "high" = false → strContains (pyLower s) "low" = false →
      mapPriority s = TaskPriority.medium) ∧
    (dictFind flds "priority" = some (.str s) → buildTask2 crid tid flds = .ok t →
      t.priority = mapPriority s) ∧
    (dictFind flds "priority" = none → buildTask2 crid tid flds = .ok t →
      t.priority = TaskPriority.medium) := by
  refine ⟨?_, ?_, ?_, ?_, ?_⟩
  · intro h
    simp [mapPriority, priorityFromText, h]
  · intro h1 h2
    simp [mapPriority, priorityFromText, h1, h2]
  · intro h1 h2
    simp [mapPriority, priorityFromText, h1, h2]
  · intro hp hb
    obtain ⟨ptext, cat, hpt, hcat, htl, hd, ht⟩ := buildTask2_ok_inv hb
    rw [dictGet_of_find hp] at hpt
    have hpt2 : Except.ok (ε := PyErr) (pyLower s) = .ok ptext := hpt
    injection hpt2 with h3
    rw [ht]
    dsimp only
    rw [← h3]
    rfl
  · intro hp hb
    obtain ⟨ptext, cat, hpt, hcat, htl, hd, ht⟩ := buildTask2_ok_inv hb
    rw [dictGet_of_none hp] at hpt
    have hpt2 : Except.ok (ε := PyErr) (pyLower "medium") = .ok ptext := hpt
    injection hpt2 with h3
    rw [ht]
    dsimp only
    rw [← h3]
    rfl

/-- C6 amended witness: concrete priority strings on each branch, and the
absent-priority default on a concrete task object. -/
theorem claim_C6_amended_witness :
    mapPriority "HIGH priority" = TaskPriority.high ∧
    mapPriority "Low" = TaskPriority.low ∧
    mapPriority "urgent" = TaskPriority.medium ∧
    (∃ t, buildTask2 "cr" "task_0" [("title", Json.str "t")] = .ok t ∧
      t.priority = TaskPriority.medium) := by
  have hd : buildTask2 "cr" "task_0" [("title", Json.str "t")] =
      .ok { id := "task_0", care_request_id := "cr", title := "t",
            description := "", category := "general",
            priority := TaskPriority.medium, status := TaskStatus.draft } := rfl
  refine ⟨?_, ?_, ?_, ?_⟩
  · exact (claim_C6_amended "HIGH priority" "cr" "task_0" [] ⟨"", "", "", "", "", "", ""⟩).1
      (by decide)
  · exact (claim_C6_amended "Low" "cr" "task_0" [] ⟨"", "", "", "", "", "", ""⟩).2.1
      (by decide) (by decide)
  · exact (claim_C6_amended "urgent" "cr" "task_0" [] ⟨"", "", "", "", "", "", ""⟩).2.2.1
      (by decide) (by decide)
  · exact ⟨_, hd,
      (claim_C6_amended "" "cr" "task_0" [("title", Json.str "t")]
        { id := "task_0", care_request_id := "cr", title := "t", description := "",
          category := "general", priority := TaskPriority.medium,
          status := TaskStatus.draft }).2.2.2.2 rfl hd⟩

/-! ## Claim C4 -/

/-- C4: in the title-matching step shared by the stage 3, stage 4 and
stage 5 parsers, a parsed task whose title case-insensitively equals the
title of some previous-stage task reuses that task's id (the first match in
list order) and consumes no fresh id; a parsed task with no match gets the
next freshly minted id; and the step is deterministic, so repeating the
same match yields the same id. Matching is exact case-insensitive equality
of the lowered titles, nothing fuzzier. -/
theorem claim_C4_identity (fresh : Nat → String) (prev : List CareTask)
    (crid : String) (k : Nat) (flds : List (String × Json)) (s : String)
    (t : CareTask) (k' : Nat)
    (htitle : dictFind flds "title" = some (.str s))
    (hb : buildMatched fresh prev crid k flds = .ok (t, k')) :
    (∀ pt, prev.find? (fun p => pyLower p.title == pyLower s) = some pt →
      t.id = pt.id ∧ k' = k ∧ pt ∈ prev ∧ pyLower pt.title = pyLower s) ∧
    (prev.find? (fun p => pyLower p.title == pyLower s) = none →
      t.id = "task_" ++ fresh k ∧ k' = k + 1) ∧
    (∀ t2 k2, buildMatched fresh prev crid k flds = .ok (t2, k2) →
      t2.id = t.id ∧ k2 = k') := by
  obtain ⟨ptext, existing, cat, hpt, hex, hcat, htl, hd, hpr, hst, hcr, hid⟩ :=
    buildMatched_ok_inv hb
  have htv : dictGet flds "title" (.str "") = .str s := dictGet_of_find htitle _
  rw [findMatch_str htv] at hex
  have hex' : existing = prev.find? (fun p => pyLower p.title == pyLower s) := by
    injection hex with h
    exact h.symm
  refine ⟨?_, ?_, ?_⟩
  · intro pt hfind
    rcases hid with ⟨pt', hpt', hids, hks⟩ | ⟨hnone, _, _⟩
    · rw [hex', hfind] at hpt'
      injection hpt' with h4
      refine ⟨h4 ▸ hids, hks, List.mem_of_find?_eq_some hfind, ?_⟩
      have h5 := List.find?_some hfind
      exact eq_of_beq h5
    · rw [hex', hfind] at hnone
      exact absurd hnone (by simp)
  · intro hfind
    rcases hid with ⟨pt', hpt', _, _⟩ | ⟨_, hids, hks⟩
    · rw [hex', hfind] at hpt'
      exact absurd hpt' (by simp)
    · exact ⟨hids, hks⟩
  · intro t2 k2 hb2
    rw [hb] at hb2
    injection hb2 with h6
    injection h6 with h7 h8
    exact ⟨congrArg CareTask.id h7.symm, h8.symm⟩

/-- C4 witness: a concrete previous list and a concrete parsed object whose
title matches up to case; the previous id is reused and no fresh id is
consumed. -/
theorem claim_C4_identity_witness :
    buildMatched (fun n => toString n)
      [{ id := "task_A", care_request_id := "cr", title := "Bring Meals",
         description := "", category := "general",
         priority := TaskPriority.medium, status := TaskStatus.draft }]
      "cr" 0 [("title", Json.str "bring meals")] =
      .ok ({ id := "task_A", care_request_id := "cr", title := "bring meals",
             description := "", category := "general",
             priority := TaskPriority.medium, status := TaskStatus.draft }, 0) ∧
    "task_A" =
      ({ id := "task_A", care_request_id := "cr", title := "Bring Meals",
         description := "", category := "general",
         priority := TaskPriority.medium,
         status := TaskStatus.draft } : CareTask).id := by
  have hb : buildMatched (fun n => toString n)
      [{ id := "task_A", care_request_id := "cr", title := "Bring Meals",
         description := "", category := "general",
         priority := TaskPriority.medium, status := TaskStatus.draft }]
      "cr" 0 [("title", Json.str "bring meals")] =
      .ok ({ id := "task_A", care_request_id := "cr", title := "bring meals",
             description := "", category := "general",
             priority := TaskPriority.medium, status := TaskStatus.draft }, 0) := rfl
  have h := claim_C4_identity (fun n => toString n)
    [{ id := "task_A", care_request_id := "cr", title := "Bring Meals",
       description := "", category := "general",
       priority := TaskPriority.medium, status := TaskStatus.draft }]
    "cr" 0 [("title", Json.str "bring meals")] "bring meals"
    { id := "task_A", care_request_id := "cr", title := "bring meals",
      description := "", category := "general",
      priority := TaskPriority.medium, status := TaskStatus.draft } 0 rfl hb
  exact ⟨hb,
    ((h.1 { id := "task_A", care_request_id := "cr", title := "Bring Meals",
            description := "", category := "general",
            priority := TaskPriority.medium, status := TaskStatus.draft } rfl).1).symm⟩

/-! ## Claim C10 -/

/-- C10: a task object holding a title key but a non-string priority value
drives the lower call into an AttributeError; the except tuple of the stage
parsers catches only ValueError, json.JSONDecodeError and KeyError, so the
bare AttributeError escapes without the stage-identifying wrapper message,
and the Job Runner, whose except clause catches every exception, still
marks the job failed. -/
theorem claim_C10_attribute_error (fresh : Nat → String) (crid : String)
    (text : String) (xs ys : List Json) (flds : List (String × Json))
    (pv : Json) (ts0 : List CareTask) (k0 : Nat)
    (hx : extract_json text = .ok (.arr (xs ++ Json.obj flds :: ys)))
    (ht : hasKey flds "title" = true)
    (hp : dictFind flds "priority" = some pv)
    (hnv : ∀ s, pv ≠ .str s)
    (hxs : parseTasksLoop fresh crid 0 xs = .ok (ts0, k0)) :
    parse_tasks fresh crid text =
      .error (.attributeError (pv.typeName ++ " object has no attribute lower")) ∧
    PyErr.catchable (.attributeError (pv.typeName ++ " object has no attribute lower")) = false ∧
    (∀ (j : Job) (events : List (String × String)),
      (executeJob j
        ⟨events, .error
          (.attributeError (pv.typeName ++ " object has no attribute lower"))⟩).status =
        JobStatus.failed) := by
  have hloop : parseTasksLoop fresh crid 0 (xs ++ Json.obj flds :: ys) =
      .error (.attributeError (pv.typeName ++ " object has no attribute lower")) := by
    rw [parseTasksLoop_append, hxs]
    dsimp only
    rw [parseTasksLoop, ht]
    simp only [if_true]
    rw [buildTask2_attr hp hnv, exbind_error]
  have hne : (xs ++ Json.obj flds :: ys).isEmpty = false := by
    cases xs <;> rfl
  have hcore : parse_tasks_core fresh crid (.arr (xs ++ Json.obj flds :: ys)) =
      .error (.attributeError (pv.typeName ++ " object has no attribute lower")) := by
    unfold parse_tasks_core
    dsimp only
    rw [exbind_ok]
    dsimp only
    rw [hne]
    simp only [Bool.false_eq_true, if_false]
    rw [hloop, exbind_error]
  refine ⟨?_, rfl, ?_⟩
  · unfold parse_tasks
    rw [hx, exbind_ok, hcore]
    rfl
  · intro j events
    unfold executeJob
    cases hc : j.care_request with
    | none =>
      simp only [hc]
      rfl
    | some c =>
      simp only [hc]
      rfl

/-- C10 witness: a concrete stage 2 response whose single task object has a
numeric priority. -/
theorem claim_C10_attribute_error_witness :
    parse_tasks (fun n => toString n) "cr"
      "[\x7b\"title\": \"T\", \"priority\": 5\x7d]" =
      .error (.attributeError "int object has no attribute lower") := by
  have h := claim_C10_attribute_error (fun n => toString n) "cr"
    "[\x7b\"title\": \"T\", \"priority\": 5\x7d]" [] []
    [("title", Json.str "T"), ("priority", Json.num 5)] (Json.num 5) [] 0
    rfl rfl rfl (fun s h => Json.noConfusion h) rfl
  exact h.1

/-! ## Supporting lemmas: the fence-pattern search -/

theorem dropPref_self (tag rest : List Char) :
    dropPref tag (tag ++ rest) = some rest := by
  induction tag with
  | nil => rfl
  | cons t ts ih => simp [dropPref, ih]

theorem dropPref_head_ne {t c : Char} (ts rest : List Char) (h : c ≠ t) :
    dropPref (t :: ts) (c :: rest) = none := by
  simp [dropPref, h]

theorem dropPref_no_tick {ts l : List Char} (h : ∀ c ∈ l, c ≠ '`') :
    dropPref ('`' :: ts) l = none := by
  cases l with
  | nil => rfl
  | cons c rest => exact dropPref_head_ne ts rest (h c (List.mem_cons_self c rest))

theorem matchFenceAt_no_tick {tag : List Char} {c : Char} (rest : List Char)
    (htag : tag.head? = some '`') (hc : c ≠ '`') :
    matchFenceAt tag (c :: rest) = none := by
  cases tag with
  | nil => exact absurd htag (by simp)
  | cons t ts =>
    have ht : t = '`' := by
      simp only [List.head?_cons, Option.some_inj] at htag
      exact htag
    unfold matchFenceAt
    rw [dropPref_head_ne ts rest (ht ▸ hc)]

theorem searchFence_cons_none {tag : List Char} {c : Char} {rest : List Char}
    (h : matchFenceAt tag (c :: rest) = none) :
    searchFence tag (c :: rest) = searchFence tag rest := by
  rw [searchFence, h]

theorem searchFence_cons_some {tag : List Char} {c : Char} {rest g : List Char}
    (h : matchFenceAt tag (c :: rest) = some g) :
    searchFence tag (c :: rest) = some g := by
  rw [searchFence, h]

theorem searchFence_append {tag : List Char} (htag : tag.head? = some '`')
    (pre : List Char) (hpre : ∀ c ∈ pre, c ≠ '`') (l : List Char) :
    searchFence tag (pre ++ l) = searchFence tag l := by
  induction pre with
  | nil => rfl
  | cons c pre ih =>
    simp only [List.cons_append]
    rw [searchFence_cons_none
      (matchFenceAt_no_tick _ htag (hpre c (List.mem_cons_self c pre)))]
    exact ih (fun c' hc' => hpre c' (List.mem_cons_of_mem c hc'))

theorem searchFence_none {tag : List Char} (htag : tag.head? = some '`')
    (l : List Char) (hl : ∀ c ∈ l, c ≠ '`') : searchFence tag l = none := by
  induction l with
  | nil => rfl
  | cons c rest ih =>
    rw [searchFence_cons_none
      (matchFenceAt_no_tick _ htag (hl c (List.mem_cons_self c rest)))]
    exact ih (fun c' hc' => hl c' (List.mem_cons_of_mem c hc'))

theorem isFenceAfter_false (l t : List Char) (hnt : ∀ c ∈ l, c ≠ '`')
    (hnw : ∃ c ∈ l, isPyWs c = false) : isFenceAfter (l ++ t) = false := by
  unfold isFenceAfter
  obtain ⟨c0, hc0mem, hc0⟩ := hnw
  have hne : l.dropWhile isPyWs ≠ [] := by
    intro hd
    have hall := List.dropWhile_eq_nil_iff.mp hd c0 hc0mem
    rw [hc0] at hall
    exact Bool.false_ne_true hall
  rw [List.dropWhile_append]
  cases hdw : l.dropWhile isPyWs with
  | nil => exact absurd hdw hne
  | cons d ds =>
    have hdmem : d ∈ l := (List.dropWhile_sublist _).subset (hdw ▸ List.mem_cons_self d ds)
    have hdne : d ≠ '`' := hnt d hdmem
    have hbeq : ('`' == d) = false := by
      simp only [beq_eq_false_iff_ne, ne_eq]
      exact fun hh => hdne hh.symm
    simp [fenceTicks, List.isPrefixOf, List.cons_append, hbeq]

theorem lazyMid_exact (close : Char) (hcl : close ≠ '`')
    (hclw : isPyWs close = false) (mid : List Char)
    (hmid : ∀ c ∈ mid, c ≠ '`') (post : List Char) :
    lazyMid close (mid ++ close :: '\n' :: '`' :: '`' :: '`' :: post) =
      some (mid ++ [close]) := by
  induction mid with
  | nil =>
    simp only [List.nil_append]
    rw [lazyMid]
    have hfa : isFenceAfter ('\n' :: '`' :: '`' :: '`' :: post) = true := by
      unfold isFenceAfter
      rw [show ('\n' :: '`' :: '`' :: '`' :: post).dropWhile isPyWs =
        '`' :: '`' :: '`' :: post from rfl]
      simp [fenceTicks, List.isPrefixOf]
    simp [hfa]
  | cons m mid ih =>
    simp only [List.cons_append]
    rw [lazyMid]
    have ihm : ∀ c ∈ mid, c ≠ '`' :=
      fun c hc => hmid c (List.mem_cons_of_mem m hc)
    by_cases hm : m = close
    · have hfa : isFenceAfter (mid ++ close :: '\n' :: '`' :: '`' :: '`' :: post) = false := by
        have hsh : mid ++ close :: '\n' :: '`' :: '`' :: '`' :: post =
            (mid ++ [close]) ++ '\n' :: '`' :: '`' :: '`' :: post := by
          simp
        rw [hsh]
        refine isFenceAfter_false (mid ++ [close]) _ ?_ ⟨close, by simp, hclw⟩
        intro c hc
        rcases List.mem_append.mp hc with h | h
        · exact ihm c h
        · simp only [List.mem_singleton] at h
          rw [h]
          exact hcl
      rw [hfa]
      simp only [Bool.and_false, Bool.false_eq_true, if_false]
      rw [ih ihm]
      simp
    · have hcond : (decide (m = close) && isFenceAfter
          (mid ++ close :: '\n' :: '`' :: '`' :: '`' :: post)) = false := by
        simp [hm]
      rw [hcond]
      simp only [Bool.false_eq_true, if_false]
      rw [ih ihm]
      simp

theorem matchFenceAt_at_fence (tag : List Char) (body mid : List Char)
    (post : List Char)
    (hbody : body = '{' :: mid ++ ['}'] ∨ body = '[' :: mid ++ [']'])
    (hbt : ∀ c ∈ body, c ≠ '`') :
    matchFenceAt tag
      (tag ++ ('\n' :: (body ++ ('\n' :: ('`' :: '`' :: '`' :: post))))) =
      some body := by
  unfold matchFenceAt
  rw [dropPref_self]
  rcases hbody with hb | hb
  · subst hb
    have hmid : ∀ c ∈ mid, c ≠ '`' := by
      intro c hc
      exact hbt c (by simp [hc])
    show Option.map (fun g => '{' :: g)
        (lazyMid '}' ((mid ++ ['}']) ++ ('\n' :: ('`' :: '`' :: '`' :: post)))) =
      some ('{' :: mid ++ ['}'])
    rw [List.append_assoc, List.singleton_append]
    rw [lazyMid_exact '}' (by decide) (by decide) mid hmid post]
    simp
  · subst hb
    have hmid : ∀ c ∈ mid, c ≠ '`' := by
      intro c hc
      exact hbt c (by simp [hc])
    show Option.map (fun g => '[' :: g)
        (lazyMid ']' ((mid ++ [']']) ++ ('\n' :: ('`' :: '`' :: '`' :: post)))) =
      some ('[' :: mid ++ [']'])
    rw [List.append_assoc, List.singleton_append]
    rw [lazyMid_exact ']' (by decide) (by decide) mid hmid post]
    simp

theorem searchFence_fence (tag : List Char) (htag : tag.head? = some '`')
    (pre body mid post : List Char) (hpre : ∀ c ∈ pre, c ≠ '`')
    (hbody : body = '{' :: mid ++ ['}'] ∨ body = '[' :: mid ++ [']'])
    (hbt : ∀ c ∈ body, c ≠ '`') :
    searchFence tag
      (pre ++ (tag ++ ('\n' :: (body ++ ('\n' :: ('`' :: '`' :: '`' :: post)))))) =
      some body := by
  rw [searchFence_append htag pre hpre]
  cases tag with
  | nil => exact absurd htag (by simp)
  | cons t ts =>
    exact searchFence_cons_some
      (show matchFenceAt (t :: ts)
          (t :: (ts ++ ('\n' :: (body ++ ('\n' :: ('`' :: '`' :: '`' :: post)))))) =
          some body from
        matchFenceAt_at_fence (t :: ts) body mid post hbody hbt)

theorem searchFence_ftj_none (pre body post : List Char)
    (hpre : ∀ c ∈ pre, c ≠ '`') (hbt : ∀ c ∈ body, c ≠ '`')
    (hpt : ∀ c ∈ post, c ≠ '`')
    (hpj : dropPref ['j', 's', 'o', 'n'] post = none) :
    searchFence fenceTagJson
      (pre ++ ('`' :: '`' :: '`' :: '\n' :: (body ++ ('\n' :: ('`' :: '`' :: '`' :: post))))) =
      none := by
  rw [searchFence_append (show fenceTagJson.head? = some '`' from rfl) pre hpre]
  rw [searchFence_cons_none (show matchFenceAt fenceTagJson
    ('`' :: '`' :: '`' :: '\n' :: (body ++ ('\n' :: ('`' :: '`' :: '`' :: post)))) = none from rfl)]
  rw [searchFence_cons_none (show matchFenceAt fenceTagJson
    ('`' :: '`' :: '\n' :: (body ++ ('\n' :: ('`' :: '`' :: '`' :: post)))) = none from rfl)]
  rw [searchFence_cons_none (show matchFenceAt fenceTagJson
    ('`' :: '\n' :: (body ++ ('\n' :: ('`' :: '`' :: '`' :: post)))) = none from rfl)]
  rw [show ('\n' :: (body ++ ('\n' :: ('`' :: '`' :: '`' :: post)))) =
    ('\n' :: body) ++ ('\n' :: ('`' :: '`' :: '`' :: post)) from by simp]
  rw [searchFence_append (show fenceTagJson.head? = some '`' from rfl) ('\n' :: body) (by
    intro c hc
    rcases List.mem_cons.mp hc with h | h
    · rw [h]; decide
    · exact hbt c h)]
  rw [searchFence_cons_none (show matchFenceAt fenceTagJson
    ('\n' :: ('`' :: '`' :: '`' :: post)) = none from rfl)]
  have hm0 : matchFenceAt fenceTagJson ('`' :: '`' :: '`' :: post) = none := by
    unfold matchFenceAt
    rw [show dropPref fenceTagJson ('`' :: '`' :: '`' :: post) =
      dropPref ['j', 's', 'o', 'n'] post from rfl, hpj]
  rw [searchFence_cons_none hm0]
  have hm1 : matchFenceAt fenceTagJson ('`' :: '`' :: post) = none := by
    unfold matchFenceAt
    rw [show dropPref fenceTagJson ('`' :: '`' :: post) =
      dropPref ['`', 'j', 's', 'o', 'n'] post from rfl, dropPref_no_tick hpt]
  rw [searchFence_cons_none hm1]
  have hm2 : matchFenceAt fenceTagJson ('`' :: post) = none := by
    unfold matchFenceAt
    rw [show dropPref fenceTagJson ('`' :: post) =
      dropPref ['`', '`', 'j', 's', 'o', 'n'] post from rfl, dropPref_no_tick hpt]
  rw [searchFence_cons_none hm2]
  exact searchFence_none (show fenceTagJson.head? = some '`' from rfl) post hpt

/-! ## Claim C1 -/

/-- C1 counterexample: the fenced code block below carries the language tag
python and contains valid JSON, yet the Response Parser raises its
ValueError — only json-tagged and untagged fences are recognized, so the
claim's any-language-tag reading fails. -/
theorem claim_C1_counterexample :
    jsonParse "\x7b\"a\": 1\x7d" = some (.obj [("a", .num 1)]) ∧
    extract_json "```python\n\x7b\"a\": 1\x7d\n```" =
      .error (.valueError (noJsonMsg "```python\n\x7b\"a\": 1\x7d\n```")) :=
  ⟨rfl, rfl⟩

/-- C1 amended: extraction from a fenced block is guaranteed for fences
tagged json or untagged whose contents are a JSON object or array, with a
newline after the opening fence and before the closing one, when the prose
before the block contains no backtick; for an untagged fence the text after
the closing fence must also be backtick-free and must not start with the
letters json (which would extend the closing fence into a json-tagged
opening fence). Under those conditions the parser returns exactly the
block's JSON value whatever the surrounding prose. -/
theorem claim_C1_amended :
    (∀ (text pre body post : String) (mid : List Char) (v : Json),
      text.data = pre.data ++ (fenceTagJson ++
        ('\n' :: (body.data ++ ('\n' :: (fenceTicks ++ post.data))))) →
      (body.data = '{' :: mid ++ ['}'] ∨ body.data = '[' :: mid ++ [']']) →
      (∀ c ∈ pre.data, c ≠ '`') → (∀ c ∈ body.data, c ≠ '`') →
      jsonParse body = some v → directParse text = none →
      extract_json text = .ok v) ∧
    (∀ (text pre body post : String) (mid : List Char) (v : Json),
      text.data = pre.data ++ (fenceBare ++
        ('\n' :: (body.data ++ ('\n' :: (fenceTicks ++ post.data))))) →
      (body.data = '{' :: mid ++ ['}'] ∨ body.data = '[' :: mid ++ [']']) →
      (∀ c ∈ pre.data, c ≠ '`') → (∀ c ∈ body.data, c ≠ '`') →
      (∀ c ∈ post.data, c ≠ '`') →
      dropPref ['j', 's', 'o', 'n'] post.data = none →
      jsonParse body = some v → directParse text = none →
      extract_json text = .ok v) := by
  constructor
  · intro text pre body post mid v htext hbody hpre hbt hparse hnd
    have hs : searchFence fenceTagJson text.data = some body.data := by
      rw [htext]
      exact searchFence_fence fenceTagJson rfl pre.data body.data mid post.data
        hpre hbody hbt
    unfold extract_json
    rw [hnd]
    unfold tryFence
    rw [hs]
    dsimp only
    rw [string_mk_data, hparse]
  · intro text pre body post mid v htext hbody hpre hbt hpt hpj hparse hnd
    have hs1 : searchFence fenceTagJson text.data = none := by
      rw [htext]
      exact searchFence_ftj_none pre.data body.data post.data hpre hbt hpt hpj
    have hs2 : searchFence fenceBare text.data = some body.data := by
      rw [htext]
      exact searchFence_fence fenceBare rfl pre.data body.data mid post.data
        hpre hbody hbt
    unfold extract_json
    rw [hnd]
    unfold tryFence
    rw [hs1, hs2]
    dsimp only
    rw [string_mk_data, hparse]

/-- C1 amended witness: concrete prose around a json-tagged fence, and an
untagged fence, each extracted exactly. -/
theorem claim_C1_amended_witness :
    extract_json "Here is the plan: ```json\n\x7b\"a\": 1\x7d\n``` done" =
      .ok (.obj [("a", .num 1)]) ∧
    extract_json "Result: ```\n[1, 2]\n``` bye" = .ok (.arr [.num 1, .num 2]) := by
  constructor
  · exact claim_C1_amended.1 "Here is the plan: ```json\n\x7b\"a\": 1\x7d\n``` done"
      "Here is the plan: " "\x7b\"a\": 1\x7d" " done" "\"a\": 1".data
      (.obj [("a", .num 1)]) rfl (Or.inl rfl) (by decide) (by decide) rfl rfl
  · exact claim_C1_amended.2 "Result: ```\n[1, 2]\n``` bye"
      "Result: " "[1, 2]" " bye" "1, 2".data (.arr [.num 1, .num 2])
      rfl (Or.inr rfl) (by decide) (by decide) (by decide) rfl rfl rfl

/-! ## Claim C8 -/

/-- C8: a raw text whose stripped form starts with a brace or bracket and
parses as JSON is returned unchanged by the Response Parser; and when
neither the direct parse nor either fenced-block pattern yields valid JSON,
it raises ValueError whose message carries the 200-character excerpt of the
raw input. -/
theorem claim_C8_parser_contract :
    (∀ (text : String) (v : Json),
      (pyStartsWith (pyStrip text) "\x7b" = true ∨
        pyStartsWith (pyStrip text) "[" = true) →
      jsonParse (pyStrip text) = some v →
      extract_json text = .ok v) ∧
    (∀ text : String, directParse text = none →
      tryFence fenceTagJson text = none → tryFence fenceBare text = none →
      extract_json text = .error (.valueError (noJsonMsg text)) ∧
      strContains (noJsonMsg text) (truncated text) = true) := by
  constructor
  · intro text v hstart hparse
    have hd : directParse text = some v := by
      unfold directParse
      have hcond : (pyStartsWith (pyStrip text) "\x7b" ||
          pyStartsWith (pyStrip text) "[") = true := by
        rcases hstart with h | h <;> simp [h]
      dsimp only
      simp [hcond, hparse]
    unfold extract_json
    rw [hd]
  · intro text h1 h2 h3
    refine ⟨?_, ?_⟩
    · unfold extract_json
      rw [h1, h2, h3]
    · show listInfixOf (truncated text).data (noJsonMsg text).data = true
      unfold noJsonMsg
      rw [string_data_append, string_data_append]
      exact listInfixOf_append (truncated text).data _ _

/-- C8 witness: a direct-parse input returned unchanged, and an input with
no recoverable JSON whose failure message contains the excerpt. -/
theorem claim_C8_parser_contract_witness :
    extract_json "  [1, 2]  " = .ok (.arr [.num 1, .num 2]) ∧
    extract_json "no json here" = .error (.valueError (noJsonMsg "no json here")) ∧
    strContains (noJsonMsg "no json here") (truncated "no json here") = true := by
  have h := claim_C8_parser_contract
  exact ⟨h.1 "  [1, 2]  " (.arr [.num 1, .num 2]) (Or.inr rfl) rfl,
    (h.2 "no json here" rfl rfl rfl).1, (h.2 "no json here" rfl rfl rfl).2⟩

/-! ## Claim C3 -/

/-- C3 counterexample: a bare JSON array that stage 2 accepts is rejected by
stage 3; and stage 2 tolerates an empty raw array while stage 3 raises the
fatal no-valid-tasks error on an empty tasks array — refuting both the
all-three-stages-accept-both-shapes clause and the
empty-is-fatal-only-for-stage-2 clause of the claim. -/
theorem claim_C3_counterexample :
    parse_tasks (fun n => toString n) "cr" "[\x7b\"title\": \"a\"\x7d]" =
      .ok [{ id := "task_0", care_request_id := "cr", title := "a",
             description := "", category := "general",
             priority := TaskPriority.medium, status := TaskStatus.draft }] ∧
    parse_reviewed_tasks (fun n => toString n) [] "cr" "[\x7b\"title\": \"a\"\x7d]" =
      .error (.valueError
        (msgA3 ++ "Error: Expected JSON object with tasks field, got list")) ∧
    parse_tasks (fun n => toString n) "cr" "[]" = .ok [] ∧
    parse_reviewed_tasks (fun n => toString n) [] "cr" "\x7b\"tasks\": []\x7d" =
      .error (.valueError (msgA3 ++ "Error: No valid tasks found in JSON response")) :=
  ⟨rfl, rfl, rfl, rfl⟩

/-- C3 amended: stage 2 accepts a bare array and an object with a tasks
array, normalized identically, while stages 3 and 4 require the object
shape and reject a bare array; task objects missing a title key are skipped
without error by all three loops; an empty task list after skipping is
always fatal in stages 3 and 4, and fatal in stage 2 exactly when the raw
array was nonempty — an empty raw array yields an empty stage 2 result. -/
theorem claim_C3_amended (fresh : Nat → String) (crid : String)
    (prev : List CareTask) :
    (∀ l, parse_tasks_core fresh crid (.arr l) =
      parse_tasks_core fresh crid (.obj [("tasks", .arr l)])) ∧
    (∀ l, parse_reviewed_core fresh prev crid (.arr l) =
        .error (.valueError "Expected JSON object with tasks field, got list") ∧
      parse_optimized_core fresh prev crid (.arr l) =
        .error (.valueError "Expected JSON object with tasks field, got list")) ∧
    (∀ (d : Json), skippedEntry d → ∀ k xs ys,
      parseTasksLoop fresh crid k (xs ++ d :: ys) =
        parseTasksLoop fresh crid k (xs ++ ys) ∧
      parseMatchedLoop fresh prev crid k (xs ++ d :: ys) =
        parseMatchedLoop fresh prev crid k (xs ++ ys)) ∧
    parse_tasks_core fresh crid (.arr []) = .ok [] ∧
    (∀ l k, l ≠ [] → parseTasksLoop fresh crid 0 l = .ok ([], k) →
      parse_tasks_core fresh crid (.arr l) =
        .error (.valueError "No valid tasks found in JSON response")) ∧
    (∀ f l k, dictFind f "tasks" = some (.arr l) →
      parseMatchedLoop fresh prev crid 0 l = .ok ([], k) →
      parse_reviewed_core fresh prev crid (.obj f) =
        .error (.valueError "No valid tasks found in JSON response")) := by
  refine ⟨?_, ?_, ?_, rfl, ?_, ?_⟩
  · intro l
    rfl
  · intro l
    exact ⟨rfl, rfl⟩
  · intro d hd k xs ys
    exact ⟨parseTasksLoop_skip fresh crid hd k xs ys,
      parseMatchedLoop_skip fresh prev crid hd k xs ys⟩
  · intro l k hne hl
    have hemp : l.isEmpty = false := by
      cases l with
      | nil => exact absurd rfl hne
      | cons a as => rfl
    unfold parse_tasks_core
    dsimp only
    rw [exbind_ok]
    dsimp only
    rw [hemp]
    simp only [Bool.false_eq_true, if_false]
    rw [hl]
    simp only [exbind_ok]
    rfl
  · intro f l k hf hl
    unfold parse_reviewed_core
    dsimp only
    rw [exbind_ok]
    rw [hasKey_of_find hf]
    simp only [if_true]
    rw [dictGet_of_find hf]
    dsimp only
    rw [hl]
    simp only [exbind_ok]
    rfl

/-- C3 amended witness: a nonempty stage 2 array filtering to nothing is
fatal, an empty stage 3 tasks array is fatal, and a skipped entry leaves
the stage 2 loop unchanged. -/
theorem claim_C3_amended_witness :
    parse_tasks_core (fun n => toString n) "cr" (.arr [Json.num 1]) =
      .error (.valueError "No valid tasks found in JSON response") ∧
    parse_reviewed_core (fun n => toString n) [] "cr" (.obj [("tasks", .arr [])]) =
      .error (.valueError "No valid tasks found in JSON response") ∧
    parseTasksLoop (fun n => toString n) "cr" 0 ([] ++ Json.num 1 :: []) =
      parseTasksLoop (fun n => toString n) "cr" 0 ([] ++ []) := by
  have h := claim_C3_amended (fun n => toString n) "cr" []
  exact ⟨h.2.2.2.2.1 [Json.num 1] 0 (by simp) rfl,
    h.2.2.2.2.2 [("tasks", .arr [])] [] 0 rfl rfl,
    (h.2.2.1 (Json.num 1) (fun flds hf => Json.noConfusion hf) 0 [] []).1⟩

/-! ## Claim C5 -/

/-- C5 counterexample: a stage 5 response whose draft_tasks entry carries an
empty title string yields a ReviewPacket containing a CareTask whose title
is the empty string — only objects missing the title key are dropped, so
the every-packet-task-has-a-nonempty-title invariant fails on the code. -/
theorem claim_C5_counterexample :
    ∃ p, parse_review_packet (fun n => toString n) [] "cr"
        "\x7b\"draft_tasks\": [\x7b\"title\": \"\"\x7d]\x7d" = .ok p ∧
      p.draft_tasks.map (fun t => t.title) = [""] :=
  ⟨_, rfl, rfl⟩

/-- C5 amended: every CareTask in a pipeline ReviewPacket either is carried
over from the stage 4 task list or originates from a draft_tasks object
that contains a title key — task objects without one are dropped rather
than included with a null title — but the title string itself may be
empty. -/
theorem claim_C5_amended (fresh : Nat → String) (optimized : List CareTask)
    (crid : String) (data : Json) (p : ReviewPacket)
    (hp : parse_review_packet_core fresh optimized crid data = .ok p) :
    ∀ t ∈ p.draft_tasks, t ∈ optimized ∨
      ∃ f l flds, data = .obj f ∧ dictGet f "draft_tasks" .null = .arr l ∧
        Json.obj flds ∈ l ∧ hasKey flds "title" = true ∧
        dictGet flds "title" (.str "") = .str t.title := by
  intro t ht
  cases data with
  | obj f =>
    rcases parse_review_packet_core_obj_inv hp with
      ⟨l, parsed, k, hk, hget, hloop, hfin⟩ | ⟨hfin, _⟩
    · rw [hfin] at ht
      cases hemp : parsed.isEmpty with
      | true =>
        rw [hemp] at ht
        simp only [if_true] at ht
        exact Or.inl ht
      | false =>
        rw [hemp] at ht
        simp only [Bool.false_eq_true, if_false] at ht
        obtain ⟨flds, kk, kk', hmem, hkey, hbuild⟩ := parseMatchedLoop_mem hloop t ht
        obtain ⟨ptext, existing, cat, _, _, _, htl, _, _, _, _, _⟩ :=
          buildMatched_ok_inv hbuild
        exact Or.inr ⟨f, l, flds, rfl, hget, hmem, hkey, requireStr_ok_inv htl⟩
    · rw [hfin] at ht
      exact Or.inl ht
  | null => exact absurd hp (by rw [parse_review_packet_core_nonobj (by intro f h; exact Json.noConfusion h)]; simp)
  | bool b => exact absurd hp (by rw [parse_review_packet_core_nonobj (by intro f h; exact Json.noConfusion h)]; simp)
  | num n => exact absurd hp (by rw [parse_review_packet_core_nonobj (by intro f h; exact Json.noConfusion h)]; simp)
  | str s => exact absurd hp (by rw [parse_review_packet_core_nonobj (by intro f h; exact Json.noConfusion h)]; simp)
  | arr l => exact absurd hp (by rw [parse_review_packet_core_nonobj (by intro f h; exact Json.noConfusion h)]; simp)

/-- C5 amended witness: a packet built from one carried-over task and one
parsed draft task, every member accounted for. -/
theorem claim_C5_amended_witness :
    ∃ p, parse_review_packet_core (fun n => toString n) [] "cr"
        (.obj [("draft_tasks", .arr [Json.obj [("title", Json.str "")]])]) = .ok p ∧
      (∀ t ∈ p.draft_tasks, t ∈ ([] : List CareTask) ∨
        ∃ f l flds,
          (.obj [("draft_tasks", .arr [Json.obj [("title", Json.str "")]])] : Json) =
            .obj f ∧
          dictGet f "draft_tasks" .null = .arr l ∧ Json.obj flds ∈ l ∧
          hasKey flds "title" = true ∧
          dictGet flds "title" (.str "") = .str t.title) := by
  refine ⟨_, rfl, ?_⟩
  exact claim_C5_amended (fun n => toString n) [] "cr"
    (.obj [("draft_tasks", .arr [Json.obj [("title", Json.str "")]])]) _ rfl

/-! ## Claim C7 -/

/-- C7: stage 5 requires a JSON object and otherwise fails with the
stage-specific shape error; the draft_tasks field is optional — when it is
present as a list yielding at least one valid task the packet carries the
parsed replacement list, and when it is absent, not a list, or yields no
valid task, the packet carries exactly the stage 4 task list. -/
theorem claim_C7_stage5_tasks (fresh : Nat → String) (opt : List CareTask)
    (crid : String) :
    (∀ data, (∀ f, data ≠ .obj f) →
      parse_review_packet_core fresh opt crid data =
        .error (.valueError ("Expected JSON object, got " ++ data.typeName))) ∧
    (∀ f l parsed k p, dictGet f "draft_tasks" .null = .arr l →
      hasKey f "draft_tasks" = true →
      parseMatchedLoop fresh opt crid 0 l = .ok (parsed, k) → parsed ≠ [] →
      parse_review_packet_core fresh opt crid (.obj f) = .ok p →
      p.draft_tasks = parsed) ∧
    (∀ f p, hasKey f "draft_tasks" = false →
      parse_review_packet_core fresh opt crid (.obj f) = .ok p →
      p.draft_tasks = opt) ∧
    (∀ f p, (∀ l, dictGet f "draft_tasks" .null ≠ .arr l) →
      parse_review_packet_core fresh opt crid (.obj f) = .ok p →
      p.draft_tasks = opt) ∧
    (∀ f l k p, dictGet f "draft_tasks" .null = .arr l →
      parseMatchedLoop fresh opt crid 0 l = .ok ([], k) →
      parse_review_packet_core fresh opt crid (.obj f) = .ok p →
      p.draft_tasks = opt) := by
  refine ⟨fun data h => parse_review_packet_core_nonobj h, ?_, ?_, ?_, ?_⟩
  · intro f l parsed k p hget hk hloop hne hp
    rcases parse_review_packet_core_obj_inv hp with
      ⟨l', parsed', k', _, hget', hloop', hfin⟩ | ⟨_, hcontra⟩
    · rw [hget] at hget'
      injection hget' with h1
      rw [← h1] at hloop'
      rw [hloop] at hloop'
      injection hloop' with h2
      injection h2 with h3 h4
      rw [← h3] at hfin
      have hemp : parsed.isEmpty = false := by
        cases parsed with
        | nil => exact absurd rfl hne
        | cons a as => rfl
      rw [hemp] at hfin
      simpa using hfin
    · rcases hcontra with hk' | hv'
      · rw [hk] at hk'
        exact absurd hk' (by simp)
      · exact absurd hget (hv' l)
  · intro f p hk hp
    rcases parse_review_packet_core_obj_inv hp with
      ⟨l', parsed', k', hk', _, _, _⟩ | ⟨hfin, _⟩
    · rw [hk] at hk'
      exact absurd hk' (by simp)
    · exact hfin
  · intro f p hv hp
    rcases parse_review_packet_core_obj_inv hp with
      ⟨l', parsed', k', _, hget', _, _⟩ | ⟨hfin, _⟩
    · exact absurd hget' (hv l')
    · exact hfin
  · intro f l k p hget hloop hp
    rcases parse_review_packet_core_obj_inv hp with
      ⟨l', parsed', k', _, hget', hloop', hfin⟩ | ⟨hfin, _⟩
    · rw [hget] at hget'
      injection hget' with h1
      rw [← h1] at hloop'
      rw [hloop] at hloop'
      injection hloop' with h2
      injection h2 with h3 h4
      rw [← h3] at hfin
      simpa using hfin
    · exact hfin

/-- C7 witness: a concrete stage 5 object whose draft_tasks replaces the
stage 4 list, and a concrete object without draft_tasks that keeps it. -/
theorem claim_C7_stage5_tasks_witness :
    ∃ p1 p2,
      parse_review_packet_core (fun n => toString n)
        [{ id := "task_A", care_request_id := "cr", title := "Keep",
           description := "", category := "general",
           priority := TaskPriority.medium, status := TaskStatus.draft }] "cr"
        (.obj [("draft_tasks", .arr [Json.obj [("title", Json.str "New")]])]) = .ok p1 ∧
      p1.draft_tasks.map (fun t => t.title) = ["New"] ∧
      parse_review_packet_core (fun n => toString n)
        [{ id := "task_A", care_request_id := "cr", title := "Keep",
           description := "", category := "general",
           priority := TaskPriority.medium, status := TaskStatus.draft }] "cr"
        (.obj [("summary", Json.str "s")]) = .ok p2 ∧
      p2.draft_tasks.map (fun t => t.title) = ["Keep"] := by
  refine ⟨_, _, rfl, ?_, rfl, ?_⟩
  · rw [(claim_C7_stage5_tasks (fun n => toString n)
      [{ id := "task_A", care_request_id := "cr", title := "Keep",
         description := "", category := "general",
         priority := TaskPriority.medium, status := TaskStatus.draft }] "cr").2.1
      [("draft_tasks", .arr [Json.obj [("title", Json.str "New")]])]
      [Json.obj [("title", Json.str "New")]]
      [{ id := "task_0", care_request_id := "cr", title := "New",
         description := "", category := "general",
         priority := TaskPriority.medium, status := TaskStatus.draft }] 1 _
      rfl rfl rfl (by simp) rfl]
    rfl
  · rw [(claim_C7_stage5_tasks (fun n => toString n)
      [{ id := "task_A", care_request_id := "cr", title := "Keep",
         description := "", category := "general",
         priority := TaskPriority.medium, status := TaskStatus.draft }] "cr").2.2.1
      [("summary", Json.str "s")] _ rfl rfl]
    rfl

/-! ## Claim C9 -/

theorem chain'_executeTrace (R : Job → Job → Prop) (j : Job) (c : CareRequest)
    (run : PipelineRun) (hc : j.care_request = some c)
    (hstep : ∀ j' ev, R j' (applyProgress j' ev))
    (hinit : R j { j with status := JobStatus.running })
    (hfin : R (run.events.foldl applyProgress { j with status := JobStatus.running })
      (finalizeJob
        (run.events.foldl applyProgress { j with status := JobStatus.running })
        run.outcome)) :
    List.Chain' R (executeTrace j run) := by
  have htr : executeTrace j run =
      j :: (({ j with status := JobStatus.running } ::
        progressStates { j with status := JobStatus.running } run.events)
        ++ [finalizeJob
              (run.events.foldl applyProgress { j with status := JobStatus.running })
              run.outcome]) := by
    unfold executeTrace
    simp only [hc, List.cons_append]
  rw [htr, List.chain'_cons']
  constructor
  · intro b hb
    have hb' : b = { j with status := JobStatus.running } := by
      rw [List.cons_append, List.head?_cons, Option.mem_def, Option.some_inj] at hb
      exact hb.symm
    rw [hb']
    exact hinit
  · rw [List.chain'_append]
    refine ⟨chain'_progressStates R hstep run.events _, List.chain'_singleton _, ?_⟩
    intro x hx y hy
    have hx' : x = run.events.foldl applyProgress { j with status := JobStatus.running } := by
      rw [getLast_progressStates run.events _, Option.mem_def, Option.some_inj] at hx
      exact hx.symm
    have hy' : y = finalizeJob
        (run.events.foldl applyProgress { j with status := JobStatus.running })
        run.outcome := by
      rw [List.head?_cons, Option.mem_def, Option.some_inj] at hy
      exact hy.symm
    rw [hx', hy']
    exact hfin

/-- C9: along the observable state trace of one enqueued job's execution,
the status only steps forward along queued, running, then completed or
failed, never backward, and entries of agent_progress are only added or
updated, never removed: the key set grows monotonically along the trace. -/
theorem claim_C9_trace_monotone (cr : CareRequest) (fresh : Nat → String)
    (run : PipelineRun) :
    List.Chain' statusStep (executeTrace (enqueue_job fresh cr) run) ∧
    List.Chain' progMono (executeTrace (enqueue_job fresh cr) run) := by
  constructor
  · refine chain'_executeTrace statusStep _ cr run rfl ?_ ?_ ?_
    · intro j ev
      exact Or.inl (applyProgress_status j ev).symm
    · exact Or.inr (Or.inl ⟨rfl, rfl⟩)
    · refine Or.inr (Or.inr ⟨?_, finalizeJob_status _ run.outcome⟩)
      rw [foldl_applyProgress_status]
  · refine chain'_executeTrace progMono _ cr run rfl ?_ ?_ ?_
    · intro j ev key hk
      exact upsert_keys_mono _ _ _ _ hk
    · intro key hk
      exact hk
    · intro key hk
      rw [finalizeJob_progress]
      exact hk

end CareCircles
